import Mathlib

/-!
Verification of the mock-gemini-ai response-synthesis engine.

The definitions below are a shallow embedding of the TypeScript sources:
  * `src/services/grounding.ts` (class `MockGeminiService`, the Vertex AI
    surface; referred to as the "vertex" service below),
  * `src/services/context-caching.ts` (class `GoogleAIService`, the direct
    Google AI surface; referred to as the "google" service below),
  * `src/data/preset-responses.ts` (model catalog, preset table, fallback),
  * `src/types/google-ai.ts` (google model catalog).

Modelling conventions:
  * JavaScript strings are modelled by `String`; `String.length` stands for
    the UTF-16 length (they agree on the basic-multilingual-plane texts the
    service handles, and on every concrete input used here).
  * JavaScript numbers are modelled by `Nat`/`Int`/`ℚ` with explicit 32-bit
    wrap-around where the source relies on bitwise coercion.
  * `Math.random()` is modelled by an explicit stream `r : Nat → ℚ` of draws
    together with a cursor that is threaded through the generators; theorems
    quantify over all streams with values in `[0, 1)`.
  * `RegExp` construction and testing (only reachable through `regex`
    triggers) is modelled by an abstract oracle `String → String → Option
    Bool`; `none` models a pattern whose compilation throws (the source
    catches the exception and skips the preset).
-/

namespace MockGemini

/-! ### JavaScript string primitives -/

/-- Prefix test on character lists (helper for `strIncludes`). -/
def listPrefix : List Char → List Char → Bool
  | [], _ => true
  | _ :: _, [] => false
  | a :: as, b :: bs => a == b && listPrefix as bs

/-- Occurrence test on character lists (helper for `strIncludes`). -/
def listOccurs (pat : List Char) : List Char → Bool
  | [] => pat.isEmpty
  | c :: rest => listPrefix pat (c :: rest) || listOccurs pat rest

/-- JavaScript `s.includes(pat)`: substring occurrence test. -/
def strIncludes (s pat : String) : Bool :=
  listOccurs pat.data s.data

/-- JavaScript `s.split(' ')` on character lists: groups between single
space characters, keeping empty groups. -/
def splitSpaceChars : List Char → List (List Char)
  | [] => [[]]
  | c :: rest =>
    match splitSpaceChars rest with
    | [] => [[]]
    | g :: gs => if c = ' ' then [] :: g :: gs else (c :: g) :: gs

/-- JavaScript `s.split(' ')`. -/
def jsSplitSpace (s : String) : List String :=
  (splitSpaceChars s.data).map String.mk

/-- Join a word list with single spaces (the inverse of `jsSplitSpace`). -/
def joinSpace : List String → String
  | [] => ""
  | [w] => w
  | w :: x :: ws => w ++ " " ++ joinSpace (x :: ws)

/-- The suffix contributed by appending further words: each with a single
leading space (`joinSpace (w :: l) = w ++ joinPre l`). -/
def joinPre : List String → String
  | [] => ""
  | w :: ws => " " ++ w ++ joinPre ws

theorem space_length : (" " : String).length = 1 := rfl

theorem joinSpace_cons : ∀ (l : List String) (w : String),
    joinSpace (w :: l) = w ++ joinPre l
  | [], w => by simp [joinSpace, joinPre]
  | x :: xs, w => by
    show w ++ " " ++ joinSpace (x :: xs) = _
    rw [joinSpace_cons xs x]
    simp [joinPre, String.append_assoc]

/-- JavaScript `s.substring(0, n)` / `s.slice(0, n)`. -/
def jsTake (s : String) (n : Nat) : String :=
  String.mk (s.data.take n)

/-- JavaScript `s.endsWith(suffix)`. -/
def strEndsWith (s suffix : String) : Bool :=
  listPrefix suffix.data.reverse s.data.reverse

/-- JavaScript `s.split(sep)` for a single-character separator (general
form of `splitSpaceChars`). -/
def splitOnChar (sep : Char) : List Char → List (List Char)
  | [] => [[]]
  | c :: rest =>
    match splitOnChar sep rest with
    | [] => [[]]
    | g :: gs => if c = sep then [] :: g :: gs else (c :: g) :: gs

/-- JavaScript `s.toLowerCase()` (ASCII range, which is all the keyword
tables and triggers use). -/
def jsToLower (s : String) : String :=
  String.mk (s.data.map Char.toLower)

/-! ### Token estimator (`estimateTokens`, `grounding.ts` line 1027) -/

/-- `Math.ceil(text.length / 4)`. -/
def estimateTokens (text : String) : Nat :=
  (text.length + 3) / 4

/-! ### Data model -/

/-- A request/response part.  Only the variants the verified components
inspect are distinguished; every non-text variant behaves identically in
them (text extraction yields `""`, streaming skips it), so they are
collapsed into `Part.data` carrying an opaque payload description. -/
inductive Part where
  | text (s : String)
  | data (payload : String)
deriving DecidableEq, Repr

/-- The text of a text part (JavaScript `'text' in part ? part.text : ''`). -/
def Part.textOrEmpty : Part → String
  | .text s => s
  | .data _ => ""

structure Content where
  role : Option String := none
  parts : List Part
deriving DecidableEq, Repr

/-- `MockGeminiService.extractTextFromContent` (`grounding.ts` 1204-1208):
join the `text` of every part with `' '`, non-text parts contributing `''`. -/
def extractTextFromContent (c : Content) : String :=
  joinSpace (c.parts.map Part.textOrEmpty)

/-- `MockGeminiService.extractTextFromContents` (`grounding.ts` 1198-1202). -/
def extractTextFromContents (cs : List Content) : String :=
  joinSpace (cs.map extractTextFromContent)

structure UsageMetadata where
  promptTokenCount : Nat
  candidatesTokenCount : Nat
  totalTokenCount : Nat
  cachedContentTokenCount : Option Nat := none
deriving DecidableEq, Repr

structure Candidate where
  content : Content
  finishReason : Option String := none
  index : Nat := 0
deriving DecidableEq, Repr

structure GenResponse where
  candidates : List Candidate
  usageMetadata : Option UsageMetadata := none
deriving DecidableEq, Repr

/-- `extractTextFromResponse` (`grounding.ts` 1335-1347): the `text` of every
text part of every candidate, joined with `' '` (non-text parts skipped). -/
def extractTextFromResponse (r : GenResponse) : String :=
  joinSpace ((r.candidates.flatMap fun c => c.content.parts).filterMap
    fun p => match p with | .text s => some s | .data _ => none)

/-! ### Model catalogs -/

/-- A catalog entry (`getBaseModelDefinitions` in `preset-responses.ts`;
fields not consulted by the verified components are omitted). -/
structure GModel where
  id : String
  displayName : String
  inputTokenLimit : Nat
  outputTokenLimit : Nat
deriving DecidableEq, Repr

/-- The thirteen base models of `getBaseModelDefinitions`
(`preset-responses.ts` lines 32-215). -/
def baseModels : List GModel :=
  [ ⟨"gemini-2.5-pro-preview-0325", "Gemini 2.5 Pro Preview", 2000000, 8192⟩,
    ⟨"gemini-2.0-flash", "Gemini 2.0 Flash", 1048576, 8192⟩,
    ⟨"gemini-2.0-flash-lite", "Gemini 2.0 Flash-Lite", 1048576, 8192⟩,
    ⟨"gemini-1.5-pro", "Gemini 1.5 Pro", 1048576, 8192⟩,
    ⟨"gemini-1.5-flash", "Gemini 1.5 Flash", 1048576, 8192⟩,
    ⟨"gemini-1.5-flash-8b", "Gemini 1.5 Flash-8B", 1048576, 8192⟩,
    ⟨"text-embedding-004", "Text Embedding 004", 3072, 1⟩,
    ⟨"gemini-embedding-exp", "Gemini Embedding Experimental", 3072, 1⟩,
    ⟨"multimodalembedding@001", "Multimodal Embedding 001", 2048, 1⟩,
    ⟨"text-multilingual-embedding-002", "Text Multilingual Embedding 002", 2048, 1⟩,
    ⟨"imagen-3.0-generate-002", "Imagen 3", 1024, 1⟩,
    ⟨"veo-2.0-generate-001", "Veo 2", 1024, 1⟩,
    ⟨"gemini-2.0-flash-live-001", "Gemini 2.0 Flash Live", 1048576, 8192⟩ ]

/-- `generateModelName` (`preset-responses.ts` 25-29). -/
def fullModelName (pid loc id : String) : String :=
  "projects/" ++ pid ++ "/locations/" ++ loc ++ "/publishers/google/models/" ++ id

/-- `MockGeminiService.getModelByName` (`grounding.ts` 1349-1374). -/
def getModelByName (modelName : Option String) (pid loc : String) : Option GModel :=
  match modelName with
  | none => none
  | some n =>
    if strIncludes n "/" then
      baseModels.find? fun m =>
        fullModelName pid loc m.id == n
          || strEndsWith (fullModelName pid loc m.id)
              (String.mk ((splitOnChar '/' n.data).getLastD []))
    else
      baseModels.find? fun m =>
        strEndsWith (fullModelName pid loc m.id) ("/" ++ n)
          || m.displayName == n || m.id == n

/-- The google catalog `googleAIModels` (`types/google-ai.ts` 171-245). -/
def googleAIModels : List GModel :=
  [ ⟨"gemini-pro", "Gemini Pro", 32760, 8192⟩,
    ⟨"gemini-pro-vision", "Gemini Pro Vision", 16384, 2048⟩,
    ⟨"gemini-1.5-flash", "Gemini 1.5 Flash", 1048576, 8192⟩,
    ⟨"gemini-1.5-pro", "Gemini 1.5 Pro", 2097152, 8192⟩,
    ⟨"gemini-2.0-flash", "Gemini 2.0 Flash", 1048576, 8192⟩,
    ⟨"text-embedding-004", "Text Embedding 004", 3072, 1⟩ ]

/-- `getGoogleAIModelByName` (`types/google-ai.ts` 248-250): exact name
match (the google catalog stores bare ids in `name`). -/
def getGoogleAIModelByName (modelName : Option String) : Option GModel :=
  match modelName with
  | none => none
  | some n => googleAIModels.find? fun m => m.id == n

/-! ### TokenLimitError (`grounding.ts` 635-640) -/

structure TokenLimitError where
  message : String
  code : Nat
deriving DecidableEq, Repr

/-- The error thrown at every input-limit check site: message text from
`grounding.ts` 714-716 (identical at 1095-1097 and 1120-1122, and in
`GoogleAITokenLimitError` at `context-caching.ts` 1010-1012/1031-1033),
default code 400. -/
def mkTokenLimitError (measured allowed : Nat) : TokenLimitError :=
  { message := "Request exceeds token limit. Input tokens: " ++ toString measured
      ++ ", limit: " ++ toString allowed,
    code := 400 }

/-- The input-limit check shared by every request operation: with a resolved
model, fail iff `estimateTokens text > model.inputTokenLimit`
(`grounding.ts` 709-718, 1093-1098, 1116-1124; `context-caching.ts`
1007-1013, 1027-1035). -/
def inputCheck (model : Option GModel) (text : String) : Except TokenLimitError Unit :=
  match model with
  | none => Except.ok ()
  | some m =>
    if estimateTokens text > m.inputTokenLimit then
      Except.error (mkTokenLimitError (estimateTokens text) m.inputTokenLimit)
    else
      Except.ok ()

/-! ### Output trimming -/

/-- The word-accumulation loop of `MockGeminiService.trimTextToTokenLimit`
(`grounding.ts` 1314-1325).  `acc` is `trimmedText`, `len` is
`currentLength`; `(trimmedText ? ' ' : '')` is JavaScript truthiness, i.e.
a separating space is added iff `acc` is non-empty; the loop `break`s at
the first word that would exceed the budget. -/
def greedyWords (budget : Nat) : List String → String → Nat → String
  | [], acc, _ => acc
  | w :: ws, acc, len =>
    let wws := (if acc = "" then "" else " ") ++ w
    if len + wws.length > budget then acc
    else greedyWords budget ws (acc ++ wws) (len + wws.length)

/-- `MockGeminiService.trimTextToTokenLimit` (`grounding.ts` 1303-1333):
no-op within the limit, otherwise greedy whole-word accumulation within a
`tokenLimit * 4` character budget, hard character truncation if no word
fits. -/
def trimTextToTokenLimit (text : String) (tokenLimit : Nat) : String :=
  if estimateTokens text ≤ tokenLimit then text
  else
    let approximateCharLimit := tokenLimit * 4
    let trimmed := greedyWords approximateCharLimit (jsSplitSpace text) "" 0
    if trimmed = "" then jsTake text approximateCharLimit else trimmed

/-- `GoogleAIService.trimTextToTokenLimit` (`context-caching.ts` 1459-1469):
no-op within the limit, otherwise plain character truncation at
`floor(text.length * tokenLimit / estimatedTokens)` (no word boundaries). -/
def googleTrimTextToTokenLimit (text : String) (tokenLimit : Nat) : String :=
  if estimateTokens text ≤ tokenLimit then text
  else jsTake text (text.length * tokenLimit / estimateTokens text)

/-! ### Presets and trigger matching -/

inductive TriggerType where
  | text
  | contains
  | regex
deriving DecidableEq, Repr

structure Trigger where
  type : TriggerType
  value : String
deriving DecidableEq, Repr

/-- `PresetResponse` (`preset-responses.ts` 12-22; `name`/`description` are
display-only and omitted). -/
structure PresetResponse where
  id : String
  trigger : Trigger
  response : GenResponse
  delay : Option Nat := none
deriving DecidableEq, Repr

/-- Oracle modelling `new RegExp(value, 'i').test(input)`:
`none` models a pattern whose construction throws (caught and skipped). -/
def RegexOracle : Type := String → String → Option Bool

/-- One trigger test of `MockGeminiService.findMatchingPreset`
(`grounding.ts` 1216-1237): `text` is case-insensitive equality, `contains`
a case-insensitive substring test, `regex` tests the original-case input
and an invalid pattern is skipped. -/
def matchesTrigger (rt : RegexOracle) (inputText : String) (t : Trigger) : Bool :=
  match t.type with
  | .text => jsToLower inputText == jsToLower t.value
  | .contains => strIncludes (jsToLower inputText) (jsToLower t.value)
  | .regex => (rt t.value inputText).getD false

/-- Index of the first matching preset (the loop of
`MockGeminiService.findMatchingPreset`, `grounding.ts` 1210-1241). -/
def findMatchingPresetIdx (rt : RegexOracle) (presets : List PresetResponse)
    (inputText : String) : Option Nat :=
  match presets with
  | [] => none
  | p :: rest =>
    if matchesTrigger rt inputText p.trigger then some 0
    else (findMatchingPresetIdx rt rest inputText).map (· + 1)

/-- `MockGeminiService.findMatchingPreset` (`grounding.ts` 1210-1241). -/
def findMatchingPreset (rt : RegexOracle) (presets : List PresetResponse)
    (inputText : String) : Option PresetResponse :=
  match presets with
  | [] => none
  | p :: rest =>
    if matchesTrigger rt inputText p.trigger then some p
    else findMatchingPreset rt rest inputText

/-- One trigger test of `GoogleAIService.findMatchingPreset`
(`context-caching.ts` 1178-1195).  Note: the `text` branch (line 1181) uses
`includes`, i.e. substring containment, not equality. -/
def googleMatchesTrigger (rt : RegexOracle) (inputText : String) (t : Trigger) : Bool :=
  match t.type with
  | .text => strIncludes (jsToLower inputText) (jsToLower t.value)
  | .contains => strIncludes (jsToLower inputText) (jsToLower t.value)
  | .regex => (rt t.value inputText).getD false

/-- `GoogleAIService.findMatchingPreset` (`context-caching.ts` 1175-1198). -/
def googleFindMatchingPreset (rt : RegexOracle) (presets : List PresetResponse)
    (inputText : String) : Option PresetResponse :=
  match presets with
  | [] => none
  | p :: rest =>
    if googleMatchesTrigger rt inputText p.trigger then some p
    else googleFindMatchingPreset rt rest inputText

/-! ### Enum-schema response generation -/

/-- The sentiment block of `MockGeminiService.generateEnumResponse`
(`grounding.ts` 861-871); `none` means control falls through to the genre
checks. -/
def enumSentiment (enumVals : List String) (input : String) : Option String :=
  if enumVals.contains "POSITIVE" && enumVals.contains "NEGATIVE" then
    if strIncludes input "love" || strIncludes input "great"
        || strIncludes input "excellent" || strIncludes input "amazing" then
      some "POSITIVE"
    else if strIncludes input "hate" || strIncludes input "bad"
        || strIncludes input "terrible" || strIncludes input "awful" then
      some "NEGATIVE"
    else if enumVals.contains "NEUTRAL" then some "NEUTRAL"
    else none
  else none

/-- The genre block of `MockGeminiService.generateEnumResponse`
(`grounding.ts` 874-882). -/
def enumGenre (enumVals : List String) (input : String) : Option String :=
  if enumVals.contains "drama" && (strIncludes input "drama"
      || strIncludes input "serious" || strIncludes input "emotion") then
    some "drama"
  else if enumVals.contains "comedy" && (strIncludes input "comedy"
      || strIncludes input "funny" || strIncludes input "humor") then
    some "comedy"
  else if enumVals.contains "documentary" && (strIncludes input "documentary"
      || strIncludes input "factual" || strIncludes input "real-life") then
    some "documentary"
  else none

/-- The condition block of `MockGeminiService.generateEnumResponse`
(`grounding.ts` 885-893). -/
def enumCondition (enumVals : List String) (input : String) : Option String :=
  if enumVals.contains "damaged" && (strIncludes input "tear"
      || strIncludes input "broken" || strIncludes input "damage") then
    some "damaged"
  else if enumVals.contains "new in package" && strIncludes input "new" then
    some "new in package"
  else if enumVals.contains "used" && strIncludes input "used" then
    some "used"
  else none

/-- `MockGeminiService.generateEnumResponse` (`grounding.ts` 852-897). -/
def generateEnumResponse (enumVals : List String) (inputText : String) : String :=
  if enumVals.isEmpty then "UNKNOWN"
  else
    let input := jsToLower inputText
    ((enumSentiment enumVals input <|> enumGenre enumVals input
      <|> enumCondition enumVals input).getD (enumVals.headD "UNKNOWN"))

/-- `GoogleAIService.generateEnumResponse` (`context-caching.ts` 1269-1300).
Unlike the vertex version, the `NEUTRAL` fallback is not nested inside a
sentiment-pair guard, and there is no condition block. -/
def googleGenerateEnumResponse (enumVals : List String) (inputText : String) : String :=
  if enumVals.isEmpty then "UNKNOWN"
  else
    let input := jsToLower inputText
    if enumVals.contains "POSITIVE" && (strIncludes input "great"
        || strIncludes input "amazing" || strIncludes input "love") then
      "POSITIVE"
    else if enumVals.contains "NEGATIVE" && (strIncludes input "bad"
        || strIncludes input "terrible" || strIncludes input "hate") then
      "NEGATIVE"
    else if enumVals.contains "NEUTRAL" then "NEUTRAL"
    else if enumVals.contains "drama" && (strIncludes input "drama"
        || strIncludes input "serious" || strIncludes input "emotion") then
      "drama"
    else if enumVals.contains "comedy" && (strIncludes input "comedy"
        || strIncludes input "funny" || strIncludes input "humor") then
      "comedy"
    else if enumVals.contains "documentary" && (strIncludes input "documentary"
        || strIncludes input "factual" || strIncludes input "real-life") then
      "documentary"
    else enumVals.headD "UNKNOWN"

/-! ### Deterministic embeddings -/

/-- Wrap an integer to JavaScript's signed 32-bit range (the effect of
`hash & hash` and of `<<` on a JavaScript number). -/
def toInt32 (x : Int) : Int :=
  (x + 2 ^ 31) % 2 ^ 32 - 2 ^ 31

/-- One step of `MockGeminiService.simpleHash` (`grounding.ts` 1255-1259):
`hash = ((hash << 5) - hash) + char; hash = hash & hash`. -/
def hashStep (h : Int) (c : Nat) : Int :=
  toInt32 (toInt32 (h * 32) - h + c)

/-- `MockGeminiService.simpleHash` (`grounding.ts` 1253-1261), including the
final `Math.abs`.  `charCodeAt` is modelled by the character's code point
(identical on the basic multilingual plane). -/
def simpleHash (s : String) : Nat :=
  (s.data.foldl (fun h ch => hashStep h ch.toNat) 0).natAbs

/-- One component of the vertex embedding (`grounding.ts` 1245-1248):
`(simpleHash(text + i) % 2000 - 1000) / 1000`. -/
def embedComponent (text : String) (i : Nat) : ℚ :=
  let h : Nat := simpleHash (text ++ toString i) % 2000
  ((h : ℚ) - 1000) / 1000

/-- `MockGeminiService.generateDeterministicEmbedding` (`grounding.ts`
1243-1251): always 768 components. -/
def generateDeterministicEmbedding (text : String) : List ℚ :=
  (List.range 768).map (embedComponent text)

/-- The seed fold of `GoogleAIService.generateDeterministicEmbedding`
(`context-caching.ts` 1473-1477): `seed = (seed * 31 + charCode) % 1000000`. -/
def googleEmbedSeed (text : String) : Nat :=
  text.data.foldl (fun seed ch => (seed * 31 + ch.toNat) % 1000000) 0

/-- One component of the google embedding (`context-caching.ts` 1479-1482):
the fractional part of `sin(seed + i) * 10000`, mapped into `[-1, 1)`.
`Math.sin` is modelled by the real sine (not executable; no claim depends
on its concrete values, only on range and determinism). -/
noncomputable def googleEmbedComponent (seed i : Nat) : ℝ :=
  Int.fract (Real.sin (seed + i) * 10000) * 2 - 1

/-- `GoogleAIService.generateDeterministicEmbedding` (`context-caching.ts`
1471-1485): always 768 components. -/
noncomputable def googleGenerateDeterministicEmbedding (text : String) : List ℝ :=
  (List.range 768).map (googleEmbedComponent (googleEmbedSeed text))

/-! ### Streaming decomposition -/

/-- One streamed increment, abstracting the yielded object of
`streamGenerateContent` (`grounding.ts` 1064-1075): its single candidate's
single text part, its `finishReason`, and its `usageMetadata`. -/
structure StreamChunk where
  text : String
  finishReason : Option String
  usage : Option UsageMetadata
deriving DecidableEq, Repr

/-- Cumulative texts of the word loop (`grounding.ts` 1058-1059):
`currentText += (i > 0 ? ' ' : '') + words[i]`. -/
def cumAux (cur : String) : List String → List String
  | [] => []
  | w :: ws =>
    let c := cur ++ " " ++ w
    c :: cumAux c ws

/-- All cumulative texts produced for a word list. -/
def cumulativeTexts : List String → List String
  | [] => []
  | w :: ws => w :: cumAux w ws

/-- Attach `finishReason`/`usageMetadata` to the last increment only
(the `i === words.length - 1` tests at `grounding.ts` 1070 and 1074). -/
def markLast (usage : Option UsageMetadata) : List String → List StreamChunk
  | [] => []
  | [t] => [⟨t, some "STOP", usage⟩]
  | t :: t2 :: ts => ⟨t, none, none⟩ :: markLast usage (t2 :: ts)

/-- The chunks streamed for one text part (`grounding.ts` 1053-1076). -/
def streamPartChunks (usage : Option UsageMetadata) (s : String) : List StreamChunk :=
  markLast usage (cumulativeTexts (jsSplitSpace s))

/-- The texts of the text parts of a part list, in order. -/
def textsOfParts (parts : List Part) : List String :=
  parts.filterMap fun p => match p with | .text s => some s | .data _ => none

/-- The streaming decomposition of a completed response
(`MockGeminiService.streamGenerateContent`, `grounding.ts` 1032-1079): each
text part of the first candidate is split into words and re-sent
cumulatively; `GoogleAIService.streamGenerateContent` (`context-caching.ts`
1061-1104) is word-for-word the same decomposition. -/
def streamGenerateContent (resp : GenResponse) : List StreamChunk :=
  match resp.candidates with
  | [] => []
  | c :: _ =>
    ((textsOfParts c.content.parts).map (streamPartChunks resp.usageMetadata)).flatten

/-! ### Schema-driven value generation

`Math.random()` draws are modelled by a stream `r : Nat → ℚ` and a cursor
`k`; each consultation of `Math.random()` reads `r k` and advances the
cursor.  JavaScript's `Math.floor` is `Int.floor`. -/

inductive SchemaType where
  | STRING
  | INTEGER
  | NUMBER
  | BOOLEAN
  | ARRAY
  | OBJECT
deriving DecidableEq, Repr

mutual

/-- A response schema (`Schema` in `types/vertex-ai.ts` as consumed by
`grounding.ts` 904-1017): type tag, `properties` (order-preserving),
`required`, `items`, `enum`, `nullable`. -/
inductive Schema where
  | mk (type : SchemaType) (properties : PropList) (required : List String)
       (items : ItemsOpt) (enumVals : List String) (nullable : Bool)

/-- The ordered `properties` map of an object schema. -/
inductive PropList where
  | nil
  | cons (key : String) (schema : Schema) (rest : PropList)

/-- An optional `items` schema. -/
inductive ItemsOpt where
  | none
  | some (schema : Schema)

end

/-- The `nullable` flag of a schema. -/
def Schema.nullable : Schema → Bool
  | .mk _ _ _ _ _ nb => nb

mutual

/-- A generated JSON value. -/
inductive JsonValue where
  | null
  | str (s : String)
  | int (n : Int)
  | num (q : ℚ)
  | bool (b : Bool)
  | arr (items : JsonList)
  | obj (fields : FieldList)

/-- A generated JSON array. -/
inductive JsonList where
  | nil
  | cons (v : JsonValue) (rest : JsonList)

/-- The ordered fields of a generated JSON object. -/
inductive FieldList where
  | nil
  | cons (key : String) (v : JsonValue) (rest : FieldList)

end

def JsonList.length : JsonList → Nat
  | .nil => 0
  | .cons _ rest => 1 + rest.length

def FieldList.hasKey (key : String) : FieldList → Bool
  | .nil => false
  | .cons k _ rest => k == key || rest.hasKey key

def JsonValue.isNull : JsonValue → Bool
  | .null => true
  | _ => false

/-- The fixed recipe-name pool (`grounding.ts` 941). -/
def recipeNames : List String :=
  ["Chocolate Chip Cookies", "Oatmeal Raisin Cookies", "Sugar Cookies",
   "Snickerdoodles", "Peanut Butter Cookies"]

/-- The fixed first-name pool (`grounding.ts` 947). -/
def firstNames : List String :=
  ["Alex", "Jordan", "Casey", "Riley", "Morgan", "Taylor", "Avery", "Quinn"]

/-- `MockGeminiService.generateStringValue` (`grounding.ts` 931-953). -/
def generateStringValue (r : Nat → ℚ) (enumVals : List String) (inputText : String)
    (k : Nat) : JsonValue × Nat :=
  if !enumVals.isEmpty then
    (.str (generateEnumResponse enumVals inputText), k)
  else
    let input := jsToLower inputText
    if strIncludes input "recipe" || strIncludes input "cookie" then
      (.str (recipeNames.getD (Int.floor (r k * 5)).toNat ""), k + 1)
    else if strIncludes input "character" || strIncludes input "name" then
      (.str (firstNames.getD (Int.floor (r k * 8)).toNat ""), k + 1)
    else
      (.str "Generated string value", k)

/-- `MockGeminiService.generateIntegerValue` (`grounding.ts` 955-965):
`[18, 80]` when the input mentions "age", else `[0, 100]`. -/
def generateIntegerValue (r : Nat → ℚ) (inputText : String) (k : Nat) :
    JsonValue × Nat :=
  if strIncludes (jsToLower inputText) "age" then
    (.int (Int.floor (r k * 63) + 18), k + 1)
  else
    (.int (Int.floor (r k * 101)), k + 1)

/-- `MockGeminiService.generateNumberValue` (`grounding.ts` 967-971). -/
def generateNumberValue (r : Nat → ℚ) (k : Nat) : JsonValue × Nat :=
  (.num (r k * 100), k + 1)

/-- `MockGeminiService.generateBooleanValue` (`grounding.ts` 973-979): both
the "playable" branch and the default draw `Math.random() > 0.5`. -/
def generateBooleanValue (r : Nat → ℚ) (inputText : String) (k : Nat) :
    JsonValue × Nat :=
  if strIncludes (jsToLower inputText) "playable" then
    (.bool (decide (r k > 1 / 2)), k + 1)
  else
    (.bool (decide (r k > 1 / 2)), k + 1)

mutual

/-- `MockGeminiService.generateObjectFromSchema` (`grounding.ts` 904-929):
depth guard (`depth > 10 ⇒ null`) and dispatch on the schema type. -/
def generateObjectFromSchema (r : Nat → ℚ) (s : Schema) (inputText : String)
    (depth k : Nat) : JsonValue × Nat :=
  if depth > 10 then (.null, k)
  else
    match s with
    | .mk t props req items enumVals _ =>
      match t with
      | .STRING => generateStringValue r enumVals inputText k
      | .INTEGER => generateIntegerValue r inputText k
      | .NUMBER => generateNumberValue r k
      | .BOOLEAN => generateBooleanValue r inputText k
      | .ARRAY => generateArrayValue r items inputText depth k
      | .OBJECT => generateObjectValue r props req inputText depth k

/-- `MockGeminiService.generateArrayValue` (`grounding.ts` 981-994): no
`items` gives `[]`; otherwise `itemCount = floor(random * 5) + 1` items
generated at `depth + 1`. -/
def generateArrayValue (r : Nat → ℚ) (items : ItemsOpt) (inputText : String)
    (depth k : Nat) : JsonValue × Nat :=
  match items with
  | .none => (.arr .nil, k)
  | .some it =>
    let itemCount := (Int.floor (r k * 5)).toNat + 1
    let res := genArrayItems r it inputText depth (k + 1) itemCount
    (.arr res.1, res.2)

/-- The item loop of `generateArrayValue`. -/
def genArrayItems (r : Nat → ℚ) (it : Schema) (inputText : String)
    (depth k : Nat) : Nat → JsonList × Nat
  | 0 => (.nil, k)
  | n + 1 =>
    let hd := generateObjectFromSchema r it inputText (depth + 1) k
    let tl := genArrayItems r it inputText depth hd.2 n
    (.cons hd.1 tl.1, tl.2)

/-- `MockGeminiService.generateObjectValue` (`grounding.ts` 996-1017):
wraps the property loop. -/
def generateObjectValue (r : Nat → ℚ) (props : PropList) (req : List String)
    (inputText : String) (depth k : Nat) : JsonValue × Nat :=
  let res := genProps r props req inputText depth k
  (.obj res.1, res.2)

/-- The property loop of `generateObjectValue` (`grounding.ts` 1004-1014):
a required property is generated unconditionally (the `||` short-circuits,
so no draw is consumed); an optional one is generated iff a fresh draw
exceeds `0.3`; the generated entry is dropped again if its value is `null`
and the property is not `nullable`. -/
def genProps (r : Nat → ℚ) (props : PropList) (req : List String)
    (inputText : String) (depth k : Nat) : FieldList × Nat :=
  match props with
  | .nil => (.nil, k)
  | .cons key psch rest =>
    let isRequired := req.contains key
    let isNullable := psch.nullable
    if isRequired then
      let v := generateObjectFromSchema r psch inputText (depth + 1) k
      let tl := genProps r rest req inputText depth v.2
      (if v.1.isNull && !isNullable then tl.1
       else .cons key v.1 tl.1, tl.2)
    else if r k > 3 / 10 then
      let v := generateObjectFromSchema r psch inputText (depth + 1) (k + 1)
      let tl := genProps r rest req inputText depth v.2
      (if v.1.isNull && !isNullable then tl.1
       else .cons key v.1 tl.1, tl.2)
    else
      genProps r rest req inputText depth (k + 1)

end

/-! ### JSON serialization (`generateJsonResponse`, `grounding.ts` 899-902)

`JSON.stringify(value, null, 0)` with compact output.  Number formatting is
not modelled faithfully (`toString` of the rational stands in for
JavaScript float printing); no claim consults the printed digits. -/

def escapeJsonChar (c : Char) : String :=
  if c = '"' ∨ c = '\\' then String.mk ['\\', c] else String.mk [c]

def escapeJson (s : String) : String :=
  String.join (s.data.map escapeJsonChar)

mutual

def jsonStringify : JsonValue → String
  | .null => "null"
  | .str s => "\"" ++ escapeJson s ++ "\""
  | .int n => toString n
  | .num q => toString q
  | .bool b => if b then "true" else "false"
  | .arr items => "[" ++ jsonStringifyList items ++ "]"
  | .obj fields => "\x7b" ++ jsonStringifyFields fields ++ "\x7d"

def jsonStringifyList : JsonList → String
  | .nil => ""
  | .cons v .nil => jsonStringify v
  | .cons v (.cons w rest) => jsonStringify v ++ "," ++ jsonStringifyList (.cons w rest)

def jsonStringifyFields : FieldList → String
  | .nil => ""
  | .cons key v .nil => "\"" ++ escapeJson key ++ "\":" ++ jsonStringify v
  | .cons key v (.cons k2 w rest) =>
    "\"" ++ escapeJson key ++ "\":" ++ jsonStringify v ++ ","
      ++ jsonStringifyFields (.cons k2 w rest)

end

/-- `MockGeminiService.generateJsonResponse` (`grounding.ts` 899-902). -/
def generateJsonResponse (r : Nat → ℚ) (s : Schema) (inputText : String)
    (k : Nat) : String × Nat :=
  let v := generateObjectFromSchema r s inputText 0 k
  (jsonStringify v.1, v.2)

/-! ### Response assembly (`MockGeminiService.generateContent` and friends)

The embedding covers the request fragment the claims quantify over:
requests without `cachedContent` and without an applicable system
instruction (so `effectiveContents` equals the request contents, and the
system-instruction behavioural rewrite at `grounding.ts` 752-764 is the
identity), whose preset responses contain no executable-code parts (so
`processCodeExecutionParts` at 772-776 is value-level identity), and with
thinking mode not enabled (779-788).  Stage 3 tool processing is summarised
by its output `enhancedContent` (`toolResult.additionalContent`,
`grounding.ts` 699-705): the empty string models "no tools / no additional
content".

JavaScript aliasing is modelled explicitly: `matchedResponse.response` at
`grounding.ts` 737 is a *reference* to the preset object stored in
`config.presetResponses`, so the in-place writes at 744-749 (grounding
prefix) and inside `trimResponseToTokenLimit` (1275: assignment to
`trimmedCandidate.content.parts`, where `content` is not copied) also
update the stored preset.  `generateContent` therefore returns the preset
table after the call next to the response. -/

/-- Trim every text part (`grounding.ts` 1275-1281). -/
def trimParts (parts : List Part) (tokenLimit : Nat) : List Part :=
  parts.map fun p =>
    match p with
    | .text s => .text (trimTextToTokenLimit s tokenLimit)
    | .data d => .data d

/-- `MockGeminiService.trimResponseToTokenLimit` (`grounding.ts`
1267-1301), value level: trim every candidate's text parts, then recompute
`candidatesTokenCount`/`totalTokenCount` from the trimmed text. -/
def trimResponseToTokenLimit (resp : GenResponse) (tokenLimit : Nat) : GenResponse :=
  let cands := resp.candidates.map fun c =>
    { c with content := { c.content with parts := trimParts c.content.parts tokenLimit } }
  let trimmed := { resp with candidates := cands }
  match resp.usageMetadata with
  | none => trimmed
  | some u =>
    let actualTokens := estimateTokens (extractTextFromResponse trimmed)
    { trimmed with usageMetadata := some { u with
        candidatesTokenCount := actualTokens,
        totalTokenCount := u.promptTokenCount + actualTokens } }

/-- `defaultFallbackResponse` (`preset-responses.ts` 633-669; safety
ratings omitted as everywhere in this embedding). -/
def defaultFallbackResponse : GenResponse :=
  { candidates := [{
      content := {
        role := some "model",
        parts := [.text "I understand your request. This is a mock response from the Vertex AI Gemini API. In a real implementation, I would provide a more specific and helpful response based on your input."] },
      finishReason := some "STOP",
      index := 0 }],
    usageMetadata := some { promptTokenCount := 25, candidatesTokenCount := 35,
                            totalTokenCount := 60 } }

/-- Replace the element at an index (used for the aliasing write-through to
the preset table). -/
def modifyIdx : List PresetResponse → Nat → (PresetResponse → PresetResponse) →
    List PresetResponse
  | [], _, _ => []
  | p :: ps, 0, f => f p :: ps
  | p :: ps, n + 1, f => p :: modifyIdx ps n f

/-- The `enum` list of a schema. -/
def Schema.enumList : Schema → List String
  | .mk _ _ _ _ e _ => e

/-- The in-place write `response.candidates[0].content.parts[0] = {text:
enhancedContent + '\n\n' + originalText}` (`grounding.ts` 744-749).
`originalText` is `parts[0]?.text || ''`; assigning index `0` of an empty
parts array creates the element. -/
def enhanceFirstPart (enh : String) (resp : GenResponse) : GenResponse :=
  match resp.candidates with
  | [] => resp
  | c :: cs =>
    let originalText := (c.content.parts.headD (.text "")).textOrEmpty
    let newPart := Part.text (enh ++ "\n\n" ++ originalText)
    let newParts :=
      if c.content.parts = [] then [newPart] else c.content.parts.set 0 newPart
    { resp with candidates :=
        { c with content := { c.content with parts := newParts } } :: cs }

/-- `MockGeminiService.generateStructuredResponse` (`grounding.ts`
805-850): enum or JSON payload from the schema, trimmed to the output
limit; an unrecognised mime type falls back to preset matching (817-827),
whose trim writes through to the stored preset. -/
def generateStructuredResponse (rt : RegexOracle) (r : Nat → ℚ) (k : Nat)
    (presets : List PresetResponse) (contents : List Content) (sch : Schema)
    (mime : Option String) (model : Option GModel) :
    GenResponse × List PresetResponse :=
  let responseMimeType := mime.getD "application/json"
  let inputText := extractTextFromContents contents
  if responseMimeType = "text/x.enum" ∨ responseMimeType = "application/json" then
    let responseText :=
      if responseMimeType = "text/x.enum" then
        generateEnumResponse sch.enumList inputText
      else
        (generateJsonResponse r sch inputText k).1
    let responseText :=
      match model with
      | some m =>
        if m.outputTokenLimit ≠ 0 then trimTextToTokenLimit responseText m.outputTokenLimit
        else responseText
      | none => responseText
    ({ candidates := [{
         content := { role := some "model", parts := [.text responseText] },
         finishReason := some "STOP", index := 0 }],
       usageMetadata := some {
         promptTokenCount := estimateTokens inputText,
         candidatesTokenCount := estimateTokens responseText,
         totalTokenCount := estimateTokens inputText + estimateTokens responseText } },
     presets)
  else
    let matchedIdx := findMatchingPresetIdx rt presets inputText
    let response :=
      match matchedIdx with
      | some i => ((presets.get? i).map (·.response)).getD defaultFallbackResponse
      | none => defaultFallbackResponse
    match model with
    | some m =>
      if m.outputTokenLimit ≠ 0 then
        let returned := trimResponseToTokenLimit response m.outputTokenLimit
        let presetsT :=
          match matchedIdx with
          | some i => modifyIdx presets i fun p =>
              { p with response := { p.response with
                  candidates := (trimResponseToTokenLimit p.response m.outputTokenLimit).candidates } }
          | none => presets
        (returned, presetsT)
      else (response, presets)
    | none => (response, presets)

/-- The payload-producing tail of `generateContent` (`grounding.ts`
720-803), run only after the input-limit check has passed: structured
dispatch, preset matching with fallback, grounding enhancement, output
trimming, and the resulting preset-table state. -/
def generateContentBody (rt : RegexOracle) (r : Nat → ℚ) (k : Nat)
    (presets : List PresetResponse) (enhancedContent : String)
    (contents : List Content) (responseSchema : Option Schema)
    (responseMimeType : Option String) (model : Option GModel) :
    GenResponse × List PresetResponse :=
  let inputText := extractTextFromContents contents
  match responseSchema with
  | some sch =>
    generateStructuredResponse rt r k presets contents sch responseMimeType model
  | none =>
    let matchedIdx := findMatchingPresetIdx rt presets inputText
    let response :=
      match matchedIdx with
      | some i => ((presets.get? i).map (·.response)).getD defaultFallbackResponse
      | none => defaultFallbackResponse
    let doEnhance := enhancedContent ≠ "" ∧ response.candidates ≠ []
    let respE := if doEnhance then enhanceFirstPart enhancedContent response else response
    let presetsE :=
      match matchedIdx with
      | some i =>
        if doEnhance then modifyIdx presets i (fun p => { p with response := respE })
        else presets
      | none => presets
    match model with
    | some m =>
      if m.outputTokenLimit ≠ 0 then
        let returned := trimResponseToTokenLimit respE m.outputTokenLimit
        let presetsT :=
          match matchedIdx with
          | some i => modifyIdx presetsE i fun p =>
              { p with response := { p.response with
                  candidates := (trimResponseToTokenLimit p.response m.outputTokenLimit).candidates } }
          | none => presetsE
        (returned, presetsT)
      else (respE, presetsE)
    | none => (respE, presetsE)

/-! ### System instructions (`system-instructions.ts`)

The singleton `systemInstructionsService` runs `initializeDefaultInstructions`
at module load (`system-instructions.ts` line 217), so the instructions below
are installed in every run of the shipped service and `getSystemInstruction`
never returns null. -/

/-- The default instruction text installed by `initializeDefaultInstructions`
(`system-instructions.ts` 121-130). -/
def defaultSystemInstructionText : String :=
  "You are a helpful, harmless, and honest AI assistant. "
    ++ "Provide accurate and useful information while being respectful and professional. "
    ++ "If you don\x27t know something, admit it rather than guessing. "
    ++ "Focus on being genuinely helpful to the user."

/-- `createSystemInstruction` (`system-instructions.ts` 65-70). -/
def createSystemInstruction (text : String) : Content :=
  { role := some "system", parts := [Part.text text] }

/-- The model-specific instruction table installed by
`initializeDefaultInstructions` (`system-instructions.ts` 132-143). -/
def modelSpecificInstructions : List (String × Content) :=
  [("gemini-2.0-flash", createSystemInstruction
      ("You are Gemini 2.0 Flash, a fast and efficient AI assistant. "
        ++ "Provide quick, accurate responses while maintaining high quality. "
        ++ "Use your multimodal capabilities when appropriate and mention when you can help with images, audio, or code execution.")),
   ("gemini-1.5-pro", createSystemInstruction
      ("You are Gemini 1.5 Pro, a powerful AI assistant with advanced reasoning capabilities. "
        ++ "Provide thorough, well-reasoned responses with detailed explanations when helpful. "
        ++ "Use your large context window effectively for complex tasks."))]

/-- `getSystemInstruction` (`system-instructions.ts` 27-32) over the state the
module installs at load: the model-specific instruction when one is registered
for the name, the (non-null) default otherwise. -/
def getSystemInstruction (modelName : Option String) : Option Content :=
  match modelName.bind
      (fun mn => (modelSpecificInstructions.find? (fun e => e.1 == mn)).map (·.2)) with
  | some instr => some instr
  | none => some (createSystemInstruction defaultSystemInstructionText)

/-- The `hasSystemInstruction` scan of `applySystemInstruction`
(`system-instructions.ts` 48-52): some content already has the `system` role,
or the `user` role with a text part whose lowercased text contains
`"system"`. -/
def contentsHaveSystemInstruction (contents : List Content) : Bool :=
  contents.any fun content =>
    content.role == some "system"
      || (content.role == some "user"
            && content.parts.any fun part =>
                 match part with
                 | .text s => strIncludes (jsToLower s) "system"
                 | .data _ => false)

/-- `applySystemInstruction` (`system-instructions.ts` 37-59): the effective
instruction (the request-supplied one, else the model/default one) is
prepended to the contents unless they already carry a system instruction. -/
def applySystemInstruction (contents : List Content)
    (systemInstruction : Option Content) (modelName : Option String) : List Content :=
  match systemInstruction.orElse (fun _ => getSystemInstruction modelName) with
  | none => contents
  | some effectiveInstruction =>
    if contentsHaveSystemInstruction contents then contents
    else effectiveInstruction :: contents

/-- `MockGeminiService.generateContent` (`grounding.ts` 649-803) for requests
without `cachedContent` (the merge at 661-674 is a no-op for them): the
unconditional system-instruction application (680-684), the input-limit check
on the *effective* contents (707-718), then structured dispatch — which the
source runs on the raw request contents (725 with 805-808) — or the
payload-producing tail on the effective contents. -/
def generateContent (rt : RegexOracle) (r : Nat → ℚ) (k : Nat)
    (presets : List PresetResponse) (enhancedContent : String)
    (contents : List Content) (systemInstruction : Option Content)
    (responseSchema : Option Schema) (responseMimeType : Option String)
    (modelName : Option String) (pid loc : String) :
    Except TokenLimitError (GenResponse × List PresetResponse) :=
  let effectiveContents := applySystemInstruction contents systemInstruction modelName
  let model := getModelByName modelName pid loc
  let inputText := extractTextFromContents effectiveContents
  match inputCheck model inputText with
  | .error e => .error e
  | .ok _ =>
    match responseSchema with
    | some sch =>
      .ok (generateStructuredResponse rt r k presets contents sch responseMimeType model)
    | none =>
      .ok (generateContentBody rt r k presets enhancedContent effectiveContents
            none responseMimeType model)

/-- `MockGeminiService.countTokens` (`grounding.ts` 1081-1103): estimate,
validate against the model's input limit, and return the count (`42`, the
`defaultTokenResponse`, when the estimate is `0`, via JavaScript `||`). -/
def countTokens (contents : List Content) (modelName : Option String)
    (pid loc : String) : Except TokenLimitError Nat :=
  let text := extractTextFromContents contents
  let approximateTokens := estimateTokens text
  match inputCheck (getModelByName modelName pid loc) text with
  | .error e => Except.error e
  | .ok _ => Except.ok (if approximateTokens = 0 then 42 else approximateTokens)

/-- `MockGeminiService.embedContent` (`grounding.ts` 1105-1133). -/
def embedContent (content : Content) (modelName : Option String)
    (pid loc : String) : Except TokenLimitError (List ℚ) :=
  let text := extractTextFromContent content
  match inputCheck (getModelByName modelName pid loc) text with
  | .error e => Except.error e
  | .ok _ => Except.ok (generateDeterministicEmbedding text)

/-- `MockGeminiService.batchEmbedContents` (`grounding.ts` 1135-1152):
apply `embedContent` to every sub-request; the batch fails iff some
sub-request fails. -/
def batchEmbedContents (reqs : List Content) (modelName : Option String)
    (pid loc : String) : Except TokenLimitError (List (List ℚ)) :=
  reqs.mapM fun c => embedContent c modelName pid loc

/-- `GoogleAIService.embedContent` (`context-caching.ts` 1020-1044); the
`GoogleAITokenLimitError` carries the same message and code 400. -/
noncomputable def googleEmbedContent (content : Content) (modelName : Option String) :
    Except TokenLimitError (List ℝ) :=
  let text := extractTextFromContent content
  match inputCheck (getGoogleAIModelByName modelName) text with
  | .error e => Except.error e
  | .ok _ => Except.ok (googleGenerateDeterministicEmbedding text)

/-! ### Schema conformance (the property claimed of the generator)

`conformsB` formalises the claimed contract: the runtime type matches the
declared type at every node, arrays have 1-5 items all conforming to the
`items` schema, objects contain every `required` key, and object fields
appear in `properties` declaration order (with matching per-field types). -/

mutual

/-- Does a value conform to a schema in the claimed sense? -/
def conformsB : Schema → JsonValue → Bool
  | .mk t props req items _ _, v =>
    match t, v with
    | .STRING, .str _ => true
    | .INTEGER, .int _ => true
    | .NUMBER, .num _ => true
    | .BOOLEAN, .bool _ => true
    | .ARRAY, .arr xs =>
      decide (1 ≤ xs.length) && decide (xs.length ≤ 5) &&
        (match items with
         | .none => true
         | .some it => conformsList it xs)
    | .OBJECT, .obj fs =>
      conformsFields props fs && req.all fun krq => fs.hasKey krq
    | _, _ => false

/-- Every array element conforms to the `items` schema. -/
def conformsList (it : Schema) : JsonList → Bool
  | .nil => true
  | .cons v rest => conformsB it v && conformsList it rest

/-- The fields form an order-preserving sub-sequence of the declared
properties, each conforming to its declared schema. -/
def conformsFields : PropList → FieldList → Bool
  | _, .nil => true
  | .nil, .cons _ _ _ => false
  | .cons pk ps prest, .cons fk fv frest =>
    if pk = fk then conformsB ps fv && conformsFields prest frest
    else conformsFields prest (.cons fk fv frest)

end

/-- Does the declared property list contain a key? -/
def propsHasKey : PropList → String → Bool
  | .nil, _ => false
  | .cons k _ rest, key => k == key || propsHasKey rest key

/-- The declared property keys, in declaration order. -/
def propsKeys : PropList → List String
  | .nil => []
  | .cons k _ rest => k :: propsKeys rest

mutual

/-- Well-formedness of a schema sitting at generation depth `d`: the depth
guard is never reached (`d ≤ 10` at every node), every `ARRAY` has `items`,
and every `OBJECT` declares each of its `required` keys. -/
def schemaOK (d : Nat) : Schema → Bool
  | .mk t props req items _ _ =>
    decide (d ≤ 10) &&
      (match t with
       | .ARRAY =>
         (match items with
          | .none => false
          | .some it => schemaOK (d + 1) it)
       | .OBJECT =>
         req.all (propsHasKey props) && decide (propsKeys props).Nodup
           && schemaOKProps (d + 1) props
       | _ => true)

/-- Well-formedness of every declared property schema at depth `d`. -/
def schemaOKProps (d : Nat) : PropList → Bool
  | .nil => true
  | .cons _ s rest => schemaOK d s && schemaOKProps d rest

end

/-! ## Theorems -/

/-! ### C1: input token-limit enforcement -/

theorem estimateTokens_gt_iff (text : String) (L : Nat) :
    estimateTokens text > L ↔ text.length > 4 * L := by
  unfold estimateTokens
  omega

theorem inputCheck_error {m : GModel} {text : String}
    (h : text.length > 4 * m.inputTokenLimit) :
    inputCheck (some m) text
      = Except.error (mkTokenLimitError (estimateTokens text) m.inputTokenLimit) := by
  show (if estimateTokens text > m.inputTokenLimit then
      Except.error (mkTokenLimitError (estimateTokens text) m.inputTokenLimit)
    else Except.ok ()) = _
  rw [if_pos ((estimateTokens_gt_iff text m.inputTokenLimit).mpr h)]

theorem inputCheck_ok {m : GModel} {text : String}
    (h : text.length ≤ 4 * m.inputTokenLimit) :
    inputCheck (some m) text = Except.ok () := by
  show (if estimateTokens text > m.inputTokenLimit then
      Except.error (mkTokenLimitError (estimateTokens text) m.inputTokenLimit)
    else Except.ok ()) = _
  rw [if_neg]
  intro hc
  exact absurd ((estimateTokens_gt_iff text m.inputTokenLimit).mp hc) (by omega)

theorem embedContent_ok {pid loc n : String} {m : GModel}
    (hm : getModelByName (some n) pid loc = some m) {c : Content}
    (h : (extractTextFromContent c).length ≤ 4 * m.inputTokenLimit) :
    embedContent c (some n) pid loc
      = Except.ok (generateDeterministicEmbedding (extractTextFromContent c)) := by
  simp only [embedContent]
  rw [hm, inputCheck_ok h]

theorem embedContent_error {pid loc n : String} {m : GModel}
    (hm : getModelByName (some n) pid loc = some m) {c : Content}
    (h : (extractTextFromContent c).length > 4 * m.inputTokenLimit) :
    embedContent c (some n) pid loc
      = Except.error (mkTokenLimitError (estimateTokens (extractTextFromContent c))
          m.inputTokenLimit) := by
  simp only [embedContent]
  rw [hm, inputCheck_error h]

theorem googleEmbedContent_ok {n : String} {gm : GModel}
    (hgm : getGoogleAIModelByName (some n) = some gm) {c : Content}
    (h : (extractTextFromContent c).length ≤ 4 * gm.inputTokenLimit) :
    googleEmbedContent c (some n)
      = Except.ok (googleGenerateDeterministicEmbedding (extractTextFromContent c)) := by
  simp only [googleEmbedContent]
  rw [hgm, inputCheck_ok h]

theorem googleEmbedContent_error {n : String} {gm : GModel}
    (hgm : getGoogleAIModelByName (some n) = some gm) {c : Content}
    (h : (extractTextFromContent c).length > 4 * gm.inputTokenLimit) :
    googleEmbedContent c (some n)
      = Except.error (mkTokenLimitError (estimateTokens (extractTextFromContent c))
          gm.inputTokenLimit) := by
  simp only [googleEmbedContent]
  rw [hgm, inputCheck_error h]

theorem joinSpace_le_joinPre (ws : List String) :
    (joinSpace ws).length ≤ (joinPre ws).length := by
  cases ws with
  | nil => exact le_refl _
  | cons w l =>
    rw [joinSpace_cons]
    show (w ++ joinPre l).length ≤ (" " ++ w ++ joinPre l).length
    simp only [String.length_append]
    omega

theorem applySystemInstruction_length_ge (contents : List Content)
    (si : Option Content) (mn : Option String) :
    (extractTextFromContents contents).length
      ≤ (extractTextFromContents (applySystemInstruction contents si mn)).length := by
  unfold applySystemInstruction
  split
  · exact le_refl _
  · split
    · exact le_refl _
    · show (joinSpace (contents.map extractTextFromContent)).length
        ≤ (joinSpace (extractTextFromContent _
            :: contents.map extractTextFromContent)).length
      rw [joinSpace_cons]
      have h := joinSpace_le_joinPre (contents.map extractTextFromContent)
      simp only [String.length_append]
      omega

theorem generateContent_error {pid loc n : String} {m : GModel}
    (hm : getModelByName (some n) pid loc = some m)
    {rt : RegexOracle} {r : Nat → ℚ} {k : Nat} {presets : List PresetResponse}
    {enh : String} {contents : List Content} {si : Option Content}
    {sch : Option Schema} {mime : Option String}
    (h : (extractTextFromContents (applySystemInstruction contents si (some n))).length
          > 4 * m.inputTokenLimit) :
    generateContent rt r k presets enh contents si sch mime (some n) pid loc
      = Except.error (mkTokenLimitError
          (estimateTokens (extractTextFromContents
            (applySystemInstruction contents si (some n)))) m.inputTokenLimit) := by
  simp only [generateContent]
  rw [hm, inputCheck_error h]

theorem generateContent_ok {pid loc n : String} {m : GModel}
    (hm : getModelByName (some n) pid loc = some m)
    {rt : RegexOracle} {r : Nat → ℚ} {k : Nat} {presets : List PresetResponse}
    {enh : String} {contents : List Content} {si : Option Content}
    {sch : Option Schema} {mime : Option String}
    (h : (extractTextFromContents (applySystemInstruction contents si (some n))).length
          ≤ 4 * m.inputTokenLimit) :
    ∃ out, generateContent rt r k presets enh contents si sch mime (some n) pid loc
      = Except.ok out := by
  simp only [generateContent]
  rw [hm, inputCheck_ok h]
  cases sch with
  | none => exact ⟨_, rfl⟩
  | some x => exact ⟨_, rfl⟩

theorem countTokens_ok {pid loc n : String} {m : GModel}
    (hm : getModelByName (some n) pid loc = some m) {contents : List Content}
    (h : (extractTextFromContents contents).length ≤ 4 * m.inputTokenLimit) :
    countTokens contents (some n) pid loc
      = Except.ok (if estimateTokens (extractTextFromContents contents) = 0 then 42
          else estimateTokens (extractTextFromContents contents)) := by
  simp only [countTokens]
  rw [hm, inputCheck_ok h]

theorem batchEmbed_ok {pid loc n : String} {m : GModel}
    (hm : getModelByName (some n) pid loc = some m) (reqs : List Content)
    (h : ∀ c ∈ reqs, (extractTextFromContent c).length ≤ 4 * m.inputTokenLimit) :
    batchEmbedContents reqs (some n) pid loc
      = Except.ok (reqs.map fun c => generateDeterministicEmbedding (extractTextFromContent c)) := by
  induction reqs with
  | nil => rfl
  | cons c cs ih =>
    have hc := embedContent_ok hm (h c (List.mem_cons_self c cs))
    have hcs := ih fun d hd => h d (List.mem_cons_of_mem c hd)
    unfold batchEmbedContents at hcs ⊢
    rw [List.mapM_cons, hc, hcs]
    rfl

theorem batchEmbed_error {pid loc n : String} {m : GModel}
    (hm : getModelByName (some n) pid loc = some m) (reqs : List Content)
    (h : ∃ c ∈ reqs, (extractTextFromContent c).length > 4 * m.inputTokenLimit) :
    ∃ e, batchEmbedContents reqs (some n) pid loc = Except.error e ∧ e.code = 400 := by
  induction reqs with
  | nil => obtain ⟨c, hc, _⟩ := h; exact absurd hc (List.not_mem_nil c)
  | cons c cs ih =>
    by_cases hhd : (extractTextFromContent c).length > 4 * m.inputTokenLimit
    · refine ⟨mkTokenLimitError (estimateTokens (extractTextFromContent c)) m.inputTokenLimit,
        ?_, rfl⟩
      unfold batchEmbedContents
      rw [List.mapM_cons, embedContent_error hm hhd]
      rfl
    · obtain ⟨d, hd, hbad⟩ := h
      rcases List.mem_cons.mp hd with rfl | hd2
      · exact absurd hbad hhd
      · obtain ⟨e, he, hcode⟩ := ih ⟨d, hd2, hbad⟩
        refine ⟨e, ?_, hcode⟩
        unfold batchEmbedContents at he ⊢
        rw [List.mapM_cons, embedContent_ok hm (by omega), he]
        rfl

/-- C1 (corrected): every request operation validates `ceil(len/4)` against
the resolved model\x27s `inputTokenLimit` before building any payload, and the
`TokenLimitError` carries code 400.  For `countTokens`, `embedContent`,
`batchEmbedContents` (and the google-surface `embedContent`) the measured
text is exactly the request\x27s flattened text: over-limit requests always
fail and at-or-below-limit requests never fail on input size, as claimed.
`generateContent`, however, measures the *effective* contents after the
unconditional system-instruction application (a non-empty default
instruction is installed at module load): a request over the bound still
always fails (the effective text is never shorter than the request text),
but a request at or below the bound can fail too — see the counterexample —
and the error names the effective-text estimate. -/
theorem C1_input_token_limit_enforced
    (pid loc n : String) (m : GModel)
    (hm : getModelByName (some n) pid loc = some m)
    (rt : RegexOracle) (r : Nat → ℚ) (k : Nat) (presets : List PresetResponse)
    (enh : String) (contents : List Content) (si : Option Content)
    (sch : Option Schema) (mime : Option String) (c : Content) (reqs : List Content)
    (gn : String) (gm : GModel)
    (hgm : getGoogleAIModelByName (some gn) = some gm) :
    (∀ measured allowed, (mkTokenLimitError measured allowed).code = 400)
    ∧ ((extractTextFromContents contents).length > 4 * m.inputTokenLimit →
        ∃ e, generateContent rt r k presets enh contents si sch mime (some n) pid loc
          = Except.error e ∧ e.code = 400)
    ∧ ((extractTextFromContents (applySystemInstruction contents si (some n))).length
          > 4 * m.inputTokenLimit →
        generateContent rt r k presets enh contents si sch mime (some n) pid loc
          = Except.error (mkTokenLimitError
              (estimateTokens (extractTextFromContents
                (applySystemInstruction contents si (some n)))) m.inputTokenLimit))
    ∧ ((extractTextFromContents (applySystemInstruction contents si (some n))).length
          ≤ 4 * m.inputTokenLimit →
        ∃ out, generateContent rt r k presets enh contents si sch mime (some n) pid loc
          = Except.ok out)
    ∧ ((extractTextFromContents contents).length > 4 * m.inputTokenLimit →
        countTokens contents (some n) pid loc
          = Except.error (mkTokenLimitError
              (estimateTokens (extractTextFromContents contents)) m.inputTokenLimit))
    ∧ ((extractTextFromContents contents).length ≤ 4 * m.inputTokenLimit →
        ∃ out, countTokens contents (some n) pid loc = Except.ok out)
    ∧ ((extractTextFromContent c).length > 4 * m.inputTokenLimit →
        embedContent c (some n) pid loc
          = Except.error (mkTokenLimitError
              (estimateTokens (extractTextFromContent c)) m.inputTokenLimit))
    ∧ ((extractTextFromContent c).length ≤ 4 * m.inputTokenLimit →
        ∃ out, embedContent c (some n) pid loc = Except.ok out)
    ∧ ((∃ d ∈ reqs, (extractTextFromContent d).length > 4 * m.inputTokenLimit) →
        ∃ e, batchEmbedContents reqs (some n) pid loc = Except.error e ∧ e.code = 400)
    ∧ ((∀ d ∈ reqs, (extractTextFromContent d).length ≤ 4 * m.inputTokenLimit) →
        ∃ out, batchEmbedContents reqs (some n) pid loc = Except.ok out)
    ∧ ((extractTextFromContent c).length > 4 * gm.inputTokenLimit →
        googleEmbedContent c (some gn)
          = Except.error (mkTokenLimitError
              (estimateTokens (extractTextFromContent c)) gm.inputTokenLimit))
    ∧ ((extractTextFromContent c).length ≤ 4 * gm.inputTokenLimit →
        ∃ out, googleEmbedContent c (some gn) = Except.ok out) := by
  refine ⟨fun _ _ => rfl, ?_, ?_, ?_, ?_, ?_, ?_, ?_, ?_, ?_, ?_, ?_⟩
  · intro h
    have hge := applySystemInstruction_length_ge contents si (some n)
    exact ⟨_, generateContent_error hm (by omega), rfl⟩
  · intro h
    exact generateContent_error hm h
  · intro h
    exact generateContent_ok hm h
  · intro h
    simp only [countTokens]
    rw [hm, inputCheck_error h]
  · intro h
    exact ⟨_, countTokens_ok hm h⟩
  · exact embedContent_error hm
  · intro h
    exact ⟨_, embedContent_ok hm h⟩
  · exact batchEmbed_error hm reqs
  · intro h
    exact ⟨_, batchEmbed_ok hm reqs h⟩
  · exact googleEmbedContent_error hgm
  · intro h
    exact ⟨_, googleEmbedContent_ok hgm h⟩

/-! #### C1 witness and counterexample material -/

/-- A regex oracle under which every pattern fails to compile (no preset
table used in the witnesses has regex triggers, so any oracle would do). -/
def rtNone : RegexOracle := fun _ _ => none

/-- The all-zeroes random stream. -/
def rZero : Nat → ℚ := fun _ => 0

/-- A single-text user content. -/
def userText (s : String) : Content := { role := some "user", parts := [Part.text s] }

/-- 12290 repetitions of `'a'`: longer than `4 * 3072`, the character bound
of the `text-embedding-004` model on both surfaces. -/
def longAText : String := String.mk (List.replicate 12290 'a')

/-- 12288 = `4 * 3072` repetitions of `'a'`: a request text exactly at the
`text-embedding-004` character bound. -/
def atBoundAText : String := String.mk (List.replicate 12288 'a')

theorem extract_userText (s : String) : extractTextFromContents [userText s] = s := rfl

theorem extract_userText1 (s : String) : extractTextFromContent (userText s) = s := rfl

theorem longAText_length : longAText.length = 12290 := by
  show (List.replicate 12290 'a').length = 12290
  exact List.length_replicate 12290 'a'

theorem atBoundAText_length : atBoundAText.length = 12288 := by
  show (List.replicate 12288 'a').length = 12288
  exact List.length_replicate 12288 'a'

set_option maxRecDepth 8000 in
/-- The `text-embedding-004` catalog entry, as resolved on both surfaces. -/
theorem textEmbedding004_resolves :
    getModelByName (some "text-embedding-004") "p" "l"
        = some ⟨"text-embedding-004", "Text Embedding 004", 3072, 1⟩
      ∧ getGoogleAIModelByName (some "text-embedding-004")
        = some ⟨"text-embedding-004", "Text Embedding 004", 3072, 1⟩ := by
  exact ⟨by decide, by decide⟩

set_option maxRecDepth 8000 in
theorem C1_witness :
    (mkTokenLimitError 3073 3072).code = 400
    ∧ (∃ e, generateContent rtNone rZero 0 [] "" [userText longAText] none none none
        (some "text-embedding-004") "p" "l" = Except.error e ∧ e.code = 400)
    ∧ (∃ out, generateContent rtNone rZero 0 [] "" [userText "hi"] none none none
        (some "text-embedding-004") "p" "l" = Except.ok out)
    ∧ countTokens [userText longAText] (some "text-embedding-004") "p" "l"
      = Except.error (mkTokenLimitError
          (estimateTokens (extractTextFromContents [userText longAText])) 3072)
    ∧ (∃ out, countTokens [userText "hi"] (some "text-embedding-004") "p" "l"
        = Except.ok out)
    ∧ embedContent (userText longAText) (some "text-embedding-004") "p" "l"
      = Except.error (mkTokenLimitError
          (estimateTokens (extractTextFromContent (userText longAText))) 3072)
    ∧ (∃ out, embedContent (userText "hi") (some "text-embedding-004") "p" "l"
        = Except.ok out)
    ∧ (∃ e, batchEmbedContents [userText "hi", userText longAText]
        (some "text-embedding-004") "p" "l" = Except.error e ∧ e.code = 400)
    ∧ (∃ out, batchEmbedContents [userText "hi"] (some "text-embedding-004") "p" "l"
        = Except.ok out)
    ∧ googleEmbedContent (userText longAText) (some "text-embedding-004")
      = Except.error (mkTokenLimitError
          (estimateTokens (extractTextFromContent (userText longAText))) 3072)
    ∧ (∃ out, googleEmbedContent (userText "hi") (some "text-embedding-004")
        = Except.ok out) := by
  have hm := textEmbedding004_resolves.1
  have hgm := textEmbedding004_resolves.2
  have hlong : (extractTextFromContents [userText longAText]).length > 4 * 3072 := by
    rw [extract_userText, longAText_length]
    omega
  have hlong1 : (extractTextFromContent (userText longAText)).length > 4 * 3072 := by
    rw [extract_userText1, longAText_length]
    omega
  have hshort : (extractTextFromContents [userText "hi"]).length ≤ 4 * 3072 := by
    rw [extract_userText]
    decide
  have hshort1 : (extractTextFromContent (userText "hi")).length ≤ 4 * 3072 := by
    rw [extract_userText1]
    decide
  have heffhi : (extractTextFromContents (applySystemInstruction [userText "hi"]
      none (some "text-embedding-004"))).length ≤ 4 * 3072 := by decide
  have A := C1_input_token_limit_enforced "p" "l" "text-embedding-004" _ hm rtNone rZero 0
    [] "" [userText longAText] none none none (userText longAText)
    [userText "hi", userText longAText] "text-embedding-004" _ hgm
  have B := C1_input_token_limit_enforced "p" "l" "text-embedding-004" _ hm rtNone rZero 0
    [] "" [userText "hi"] none none none (userText "hi")
    [userText "hi"] "text-embedding-004" _ hgm
  refine ⟨A.1 3073 3072, A.2.1 hlong, B.2.2.2.1 heffhi, A.2.2.2.2.1 hlong,
    B.2.2.2.2.2.1 hshort, A.2.2.2.2.2.2.1 hlong1, B.2.2.2.2.2.2.2.1 hshort1,
    A.2.2.2.2.2.2.2.2.1 ⟨userText longAText,
      List.mem_cons_of_mem _ (List.mem_cons_self _ _), hlong1⟩,
    B.2.2.2.2.2.2.2.2.2.1 ?_, A.2.2.2.2.2.2.2.2.2.2.1 hlong1,
    B.2.2.2.2.2.2.2.2.2.2.2 hshort1⟩
  intro d hd
  rcases List.mem_singleton.mp hd with rfl
  exact hshort1

theorem listOccurs_replicate (p : Char) (ps : List Char) (c : Char)
    (h : (p == c) = false) :
    ∀ n, listOccurs (p :: ps) (List.replicate n c) = false
  | 0 => by simp [listOccurs]
  | n + 1 => by
    rw [List.replicate_succ]
    show (listPrefix (p :: ps) (c :: List.replicate n c)
        || listOccurs (p :: ps) (List.replicate n c)) = false
    rw [listOccurs_replicate p ps c h n]
    show (((p == c) && listPrefix ps (List.replicate n c)) || false) = false
    rw [h]
    rfl

theorem strIncludes_replicate_system (n : Nat) :
    strIncludes (String.mk (List.replicate n 'a')) "system" = false := by
  have hdata : ("system" : String).data = ['s', 'y', 's', 't', 'e', 'm'] := rfl
  unfold strIncludes
  rw [hdata, show (String.mk (List.replicate n 'a')).data = List.replicate n 'a' from rfl]
  exact listOccurs_replicate 's' ['y', 's', 't', 'e', 'm'] 'a' (by decide) n

theorem jsToLower_replicate_a (n : Nat) :
    jsToLower (String.mk (List.replicate n 'a')) = String.mk (List.replicate n 'a') := by
  unfold jsToLower
  rw [show (String.mk (List.replicate n 'a')).data = List.replicate n 'a' from rfl,
    List.map_replicate, show Char.toLower 'a' = 'a' from by decide]

theorem applySys_atBound :
    applySystemInstruction [userText atBoundAText] none (some "text-embedding-004")
      = createSystemInstruction defaultSystemInstructionText :: [userText atBoundAText] := by
  have hs : strIncludes (jsToLower atBoundAText) "system" = false := by
    show strIncludes (jsToLower (String.mk (List.replicate 12288 'a'))) "system" = false
    rw [jsToLower_replicate_a]
    exact strIncludes_replicate_system 12288
  have hh : contentsHaveSystemInstruction [userText atBoundAText] = false := by
    simp [contentsHaveSystemInstruction, userText, hs]
  unfold applySystemInstruction
  rw [show (Option.orElse none fun _ => getSystemInstruction (some "text-embedding-004"))
      = some (createSystemInstruction defaultSystemInstructionText) from rfl]
  show (if contentsHaveSystemInstruction [userText atBoundAText] = true
      then [userText atBoundAText]
      else [createSystemInstruction defaultSystemInstructionText, userText atBoundAText])
    = [createSystemInstruction defaultSystemInstructionText, userText atBoundAText]
  rw [hh]
  simp

set_option maxRecDepth 8000 in
theorem effText_atBound :
    extractTextFromContents
        (createSystemInstruction defaultSystemInstructionText :: [userText atBoundAText])
      = defaultSystemInstructionText ++ " " ++ atBoundAText := rfl

set_option maxRecDepth 8000 in
theorem defaultInstruction_length : defaultSystemInstructionText.length = 240 := by decide

/-- C1 counterexample: a request whose flattened text is exactly at the
`4 * inputTokenLimit` character bound of `text-embedding-004` still fails:
the unconditionally injected 240-character default system instruction makes
the effective text 12529 characters, 3133 estimated tokens, over the 3072
limit — refuting the claim that a request at or below the bound never fails
on input size. -/
theorem C1_counterexample :
    (extractTextFromContents [userText atBoundAText]).length = 4 * 3072
    ∧ generateContent rtNone rZero 0 [] "" [userText atBoundAText] none none none
        (some "text-embedding-004") "p" "l"
      = Except.error (mkTokenLimitError 3133 3072) := by
  have hlen : (extractTextFromContents (applySystemInstruction [userText atBoundAText]
      none (some "text-embedding-004"))).length = 12529 := by
    rw [applySys_atBound, effText_atBound]
    simp only [String.length_append, defaultInstruction_length, space_length,
      atBoundAText_length]
  constructor
  · rw [extract_userText, atBoundAText_length]
  · rw [generateContent_error textEmbedding004_resolves.1 (by rw [hlen]; norm_num)]
    have htok : estimateTokens (extractTextFromContents (applySystemInstruction
        [userText atBoundAText] none (some "text-embedding-004"))) = 3133 := by
      unfold estimateTokens
      rw [hlen]
    rw [htok]

/-! ### C8: trigger priority and fallback -/

theorem findMatchingPresetIdx_none_iff (rt : RegexOracle) (presets : List PresetResponse)
    (input : String) :
    findMatchingPresetIdx rt presets input = none
      ↔ findMatchingPreset rt presets input = none := by
  induction presets with
  | nil => simp [findMatchingPresetIdx, findMatchingPreset]
  | cons p rest ih =>
    by_cases h : matchesTrigger rt input p.trigger
    · simp [findMatchingPresetIdx, findMatchingPreset, h]
    · simpa [findMatchingPresetIdx, findMatchingPreset, h, Option.map_eq_none'] using ih

/-- C8: the trigger matcher scans the preset table in order and returns the
first preset whose trigger matches (regardless of any later match); and
when no preset matches, `generateContent` (here after its input check, with
no tools and no resolved model) returns the fixed generic fallback
response, leaving the table unchanged. -/
theorem C8_first_match_wins_and_fallback
    (rt : RegexOracle) (presets presets2 : List PresetResponse) (input : String)
    (r : Nat → ℚ) (k : Nat) (contents : List Content)
    (i : Nat) (hi : i < presets.length)
    (hmatch : matchesTrigger rt input (presets.get ⟨i, hi⟩).trigger = true)
    (hbefore : ∀ j (hj : j < presets.length), j < i →
        matchesTrigger rt input (presets.get ⟨j, hj⟩).trigger = false) :
    findMatchingPreset rt presets input = some (presets.get ⟨i, hi⟩)
    ∧ (findMatchingPreset rt presets2 (extractTextFromContents contents) = none →
        generateContentBody rt r k presets2 "" contents none none none
          = (defaultFallbackResponse, presets2)) := by
  constructor
  · induction presets generalizing i with
    | nil => exact absurd hi (by simp)
    | cons p rest ih =>
      match i with
      | 0 =>
        simp only [List.get] at hmatch
        simp [findMatchingPreset, hmatch]
      | i + 1 =>
        have h0 : matchesTrigger rt input p.trigger = false :=
          hbefore 0 (by simp) (by omega)
        simp only [findMatchingPreset, h0, Bool.false_eq_true, if_false]
        exact ih i (by simpa using hi) hmatch
          (fun j hj hlt => hbefore (j + 1) (by simpa using hj) (by omega))
  · intro hnone
    have hidx : findMatchingPresetIdx rt presets2 (extractTextFromContents contents)
        = none := (findMatchingPresetIdx_none_iff rt presets2 _).mpr hnone
    simp [generateContentBody, hidx]

/-- A model-role single-text-part response with `finishReason` STOP (the
shape of the canned preset payloads in `preset-responses.ts`). -/
def simpleReply (text : String) (usage : Option UsageMetadata) : GenResponse :=
  { candidates := [{
      content := { role := some "model", parts := [.text text] },
      finishReason := some "STOP",
      index := 0 }],
    usageMetadata := usage }

def presetBye : PresetResponse :=
  { id := "bye",
    trigger := { type := .contains, value := "bye" },
    response := simpleReply "Goodbye now" (some ⟨1, 2, 3, none⟩) }

def presetHello : PresetResponse :=
  { id := "greeting-test",
    trigger := { type := .contains, value := "hello" },
    response := simpleReply "Hi there friend" (some ⟨3, 25, 28, none⟩) }

theorem C8_witness :
    findMatchingPreset rtNone [presetBye, presetHello] "say hello please"
      = some presetHello
    ∧ generateContentBody rtNone rZero 0 [presetBye, presetHello] ""
        [userText "nothing matches this"] none none none
      = (defaultFallbackResponse, [presetBye, presetHello]) := by
  have hi : 1 < ([presetBye, presetHello] : List PresetResponse).length := by decide
  have hmatch : matchesTrigger rtNone "say hello please"
      (([presetBye, presetHello] : List PresetResponse).get ⟨1, hi⟩).trigger = true := by
    show matchesTrigger rtNone "say hello please" presetHello.trigger = true
    decide
  have hbefore : ∀ j (hj : j < ([presetBye, presetHello] : List PresetResponse).length),
      j < 1 → matchesTrigger rtNone "say hello please"
        (([presetBye, presetHello] : List PresetResponse).get ⟨j, hj⟩).trigger = false := by
    intro j hj hlt
    have hj0 : j = 0 := by omega
    subst hj0
    show matchesTrigger rtNone "say hello please" presetBye.trigger = false
    decide
  have T := C8_first_match_wins_and_fallback rtNone [presetBye, presetHello]
    [presetBye, presetHello] "say hello please" rZero 0 [userText "nothing matches this"]
    1 hi hmatch hbefore
  exact ⟨T.1, T.2 (by decide)⟩

/-! ### C9: semantics of `text` triggers on the two surfaces -/

/-- A preset with a `text` trigger on `"hello"` (used to separate the two
surfaces' `text`-trigger semantics). -/
def presetTextHello : PresetResponse :=
  { id := "text-trigger",
    trigger := { type := .text, value := "hello" },
    response := simpleReply "Hello back" none }

/-- C9 counterexample: on the google surface an input that merely contains
the `text`-trigger value as a proper substring still matches — the claim
that both surfaces use exact equality is false at this input. -/
theorem C9_counterexample :
    googleFindMatchingPreset rtNone [presetTextHello] "say hello please"
      = some presetTextHello
    ∧ jsToLower "say hello please" ≠ jsToLower "hello" := by
  exact ⟨by decide, by decide⟩

/-- C9 (amended): a `text`-trigger preset matches on the vertex surface
(`MockGeminiService.findMatchingPreset`) exactly when the lowercased input
equals the lowercased trigger value — mere substring containment does not
match — while on the google surface (`GoogleAIService.findMatchingPreset`)
it matches exactly when the lowercased input contains the lowercased
trigger value, the same semantics as a `contains` trigger. -/
theorem C9_text_trigger_semantics
    (rt : RegexOracle) (input : String) (p : PresetResponse)
    (h : p.trigger.type = TriggerType.text) :
    (findMatchingPreset rt [p] input = some p
      ↔ jsToLower input = jsToLower p.trigger.value)
    ∧ (googleFindMatchingPreset rt [p] input = some p
      ↔ strIncludes (jsToLower input) (jsToLower p.trigger.value) = true) := by
  have hv : matchesTrigger rt input p.trigger
      = (jsToLower input == jsToLower p.trigger.value) := by
    unfold matchesTrigger
    rw [h]
  have hg : googleMatchesTrigger rt input p.trigger
      = strIncludes (jsToLower input) (jsToLower p.trigger.value) := by
    unfold googleMatchesTrigger
    rw [h]
  constructor
  · simp only [findMatchingPreset, hv]
    by_cases he : jsToLower input = jsToLower p.trigger.value
    · simp [he]
    · simp only [he, iff_false]
      rw [if_neg]
      · simp
      · simpa using he
  · simp only [googleFindMatchingPreset, hg]
    by_cases he : strIncludes (jsToLower input) (jsToLower p.trigger.value) = true
    · simp [he]
    · simp only [he, iff_false]
      rw [if_neg]
      · simp
      · simp [he]

theorem C9_witness :
    (findMatchingPreset rtNone [presetTextHello] "Hello" = some presetTextHello
      ↔ jsToLower "Hello" = jsToLower "hello")
    ∧ (googleFindMatchingPreset rtNone [presetTextHello] "Hello" = some presetTextHello
      ↔ strIncludes (jsToLower "Hello") (jsToLower "hello") = true) :=
  C9_text_trigger_semantics rtNone "Hello" presetTextHello rfl

/-! ### C10: the preset table is not read-only per request -/

theorem enumSentiment_mem {e : List String} {i v : String}
    (h : enumSentiment e i = some v) : v ∈ e := by
  unfold enumSentiment at h
  repeat (first | (split at h) | simp_all)

theorem enumGenre_mem {e : List String} {i v : String}
    (h : enumGenre e i = some v) : v ∈ e := by
  unfold enumGenre at h
  repeat (first | (split at h) | simp_all)

theorem enumCondition_mem {e : List String} {i v : String}
    (h : enumCondition e i = some v) : v ∈ e := by
  unfold enumCondition at h
  repeat (first | (split at h) | simp_all)

theorem generateEnumResponse_mem (e : List String) (i : String) (h : e ≠ []) :
    generateEnumResponse e i ∈ e := by
  unfold generateEnumResponse
  rw [if_neg (by simp [List.isEmpty_iff, h])]
  rcases hs : enumSentiment e (jsToLower i) with _ | v
  · rcases hg : enumGenre e (jsToLower i) with _ | v
    · rcases hc : enumCondition e (jsToLower i) with _ | v
      · simp only [hs, hg, hc, Option.orElse_none, Option.none_orElse, Option.getD_none]
        cases e with
        | nil => exact absurd rfl h
        | cons a as => simp [List.headD]
      · simp only [hs, hg, hc, Option.none_orElse, Option.getD_some]
        exact enumCondition_mem hc
    · simp only [hs, hg, Option.none_orElse, Option.some_orElse, Option.getD_some]
      exact enumGenre_mem hg
  · simp only [hs, Option.some_orElse, Option.getD_some]
    exact enumSentiment_mem hs

theorem googleGenerateEnumResponse_mem (e : List String) (i : String) (h : e ≠ []) :
    googleGenerateEnumResponse e i ∈ e := by
  unfold googleGenerateEnumResponse
  rw [if_neg (by simp [List.isEmpty_iff, h])]
  repeat (first | (split) | simp_all)
  cases e with
  | nil => exact absurd rfl h
  | cons a as => simp [List.headD]

/-- C5: for every `STRING` schema with a non-empty `enum` list, enum
generation (on both surfaces) returns a member of the declared enum set;
and for the enum `["POSITIVE","NEGATIVE","NEUTRAL"]`, any input whose
lowercased text contains "amazing" generates exactly `"POSITIVE"`. -/
theorem C5_enum_closure (e : List String) (input input2 : String) (h : e ≠ [])
    (hamz : strIncludes (jsToLower input2) "amazing" = true) :
    generateEnumResponse e input ∈ e
    ∧ googleGenerateEnumResponse e input ∈ e
    ∧ generateEnumResponse ["POSITIVE", "NEGATIVE", "NEUTRAL"] input2 = "POSITIVE"
    ∧ googleGenerateEnumResponse ["POSITIVE", "NEGATIVE", "NEUTRAL"] input2
        = "POSITIVE" := by
  refine ⟨generateEnumResponse_mem e input h, googleGenerateEnumResponse_mem e input h,
    ?_, ?_⟩
  · have hsent : enumSentiment ["POSITIVE", "NEGATIVE", "NEUTRAL"] (jsToLower input2)
        = some "POSITIVE" := by
      unfold enumSentiment
      rw [if_pos (by decide), if_pos (by simp [hamz])]
    unfold generateEnumResponse
    rw [if_neg (by decide)]
    simp [hsent]
  · unfold googleGenerateEnumResponse
    rw [if_neg (by decide), if_pos (by simp [hamz])]

theorem C5_witness :
    generateEnumResponse ["drama", "comedy"] "whatever" ∈ (["drama", "comedy"] : List String)
    ∧ googleGenerateEnumResponse ["drama", "comedy"] "whatever"
        ∈ (["drama", "comedy"] : List String)
    ∧ generateEnumResponse ["POSITIVE", "NEGATIVE", "NEUTRAL"]
        "This is absolutely amazing!" = "POSITIVE"
    ∧ googleGenerateEnumResponse ["POSITIVE", "NEGATIVE", "NEUTRAL"]
        "This is absolutely amazing!" = "POSITIVE" :=
  C5_enum_closure ["drama", "comedy"] "whatever" "This is absolutely amazing!"
    (by decide) (by decide)

/-! ### C6: embeddings are a deterministic function of the input text -/

/-- C6: both embedding generators are pure functions of the input text —
equal texts give element-wise identical vectors on repeated calls — and the
full `embedContent` flows depend on the request only through its extracted
text (contents differing in non-text parts embed identically). -/
theorem C6_embedding_deterministic (t1 t2 : String) (h : t1 = t2)
    (c1 c2 : Content) (hc : extractTextFromContent c1 = extractTextFromContent c2)
    (n : Option String) (pid loc : String) :
    generateDeterministicEmbedding t1 = generateDeterministicEmbedding t2
    ∧ googleGenerateDeterministicEmbedding t1 = googleGenerateDeterministicEmbedding t2
    ∧ embedContent c1 n pid loc = embedContent c2 n pid loc
    ∧ googleEmbedContent c1 n = googleEmbedContent c2 n := by
  subst h
  refine ⟨rfl, rfl, ?_, ?_⟩
  · simp only [embedContent, hc]
  · simp only [googleEmbedContent, hc]

theorem C6_witness :
    generateDeterministicEmbedding "Same text content"
      = generateDeterministicEmbedding "Same text content"
    ∧ googleGenerateDeterministicEmbedding "Same text content"
      = googleGenerateDeterministicEmbedding "Same text content"
    ∧ embedContent { role := some "user", parts := [.text "Same text content", .data "imageA"] }
        (some "text-embedding-004") "p" "l"
      = embedContent { role := some "user", parts := [.text "Same text content", .data "imageB"] }
        (some "text-embedding-004") "p" "l"
    ∧ googleEmbedContent
        { role := some "user", parts := [.text "Same text content", .data "imageA"] }
        (some "text-embedding-004")
      = googleEmbedContent
        { role := some "user", parts := [.text "Same text content", .data "imageB"] }
        (some "text-embedding-004") :=
  C6_embedding_deterministic "Same text content" "Same text content" rfl
    { role := some "user", parts := [.text "Same text content", .data "imageA"] }
    { role := some "user", parts := [.text "Same text content", .data "imageB"] }
    (by decide) (some "text-embedding-004") "p" "l"

/-! ### C7: embedding range and dimensionality -/

set_option maxRecDepth 8000 in
/-- C7: every embedding component lies in `[-1, 1]` on both surfaces — but
the vector length is 768 for *every* input, including when the multimodal
model `multimodalembedding@001` (which resolves in the catalog, and whose
own test suite expects 1408 dimensions) is the one requested.  The
1408-dimensional part of the claim is contradicted by the code: no code
path produces anything but 768 components. -/
theorem C7_embedding_range_and_768 (t : String) :
    (generateDeterministicEmbedding t).length = 768
    ∧ (∀ q ∈ generateDeterministicEmbedding t, -1 ≤ q ∧ q ≤ 1)
    ∧ (googleGenerateDeterministicEmbedding t).length = 768
    ∧ (∀ x ∈ googleGenerateDeterministicEmbedding t, -1 ≤ x ∧ x ≤ 1)
    ∧ (getModelByName (some "multimodalembedding@001") "p" "l").isSome = true
    ∧ (768 : Nat) ≠ 1408 := by
  refine ⟨by simp [generateDeterministicEmbedding], ?_,
    by simp [googleGenerateDeterministicEmbedding], ?_, by decide, by decide⟩
  · intro q hq
    simp only [generateDeterministicEmbedding, List.mem_map] at hq
    obtain ⟨i, _, rfl⟩ := hq
    unfold embedComponent
    have hlt : simpleHash (t ++ toString i) % 2000 < 2000 :=
      Nat.mod_lt _ (by norm_num)
    have h0 : (0 : ℚ) ≤ (simpleHash (t ++ toString i) % 2000 : Nat) :=
      Nat.cast_nonneg _
    have h1 : ((simpleHash (t ++ toString i) % 2000 : Nat) : ℚ) < 2000 := by
      exact_mod_cast hlt
    constructor
    · rw [le_div_iff₀ (by norm_num : (0 : ℚ) < 1000)]
      linarith
    · rw [div_le_iff₀ (by norm_num : (0 : ℚ) < 1000)]
      linarith
  · intro x hx
    simp only [googleGenerateDeterministicEmbedding, List.mem_map] at hx
    obtain ⟨i, _, rfl⟩ := hx
    unfold googleEmbedComponent
    have h0 : (0 : ℝ) ≤ Int.fract (Real.sin (googleEmbedSeed t + i) * 10000) :=
      Int.fract_nonneg _
    have h1 : Int.fract (Real.sin (googleEmbedSeed t + i) * 10000) < 1 :=
      Int.fract_lt_one _
    constructor <;> linarith

/-! ### C2: output trimming -/

theorem str_ne_empty_iff (s : String) : s ≠ "" ↔ s.length ≠ 0 := by
  have h1 : s = "" ↔ s.data = [] := by
    rw [String.ext_iff]
  have h2 : s.length = s.data.length := rfl
  simp only [ne_eq, h1, h2, List.length_eq_zero]

/-- The greedy loop, run from a non-empty accumulator that fits the budget,
returns the accumulator extended by a maximal prefix of the remaining words
that still fits the character budget. -/
theorem greedy_spec (budget : Nat) (ws : List String) :
    ∀ acc len, acc ≠ "" → len = acc.length → acc.length ≤ budget →
    ∃ k, k ≤ ws.length
      ∧ greedyWords budget ws acc len = acc ++ joinPre (ws.take k)
      ∧ (acc ++ joinPre (ws.take k)).length ≤ budget
      ∧ (k = ws.length ∨ budget < (acc ++ joinPre (ws.take (k + 1))).length) := by
  induction ws with
  | nil =>
    intro acc len hne hlen hbud
    refine ⟨0, Nat.le_refl 0, ?_, ?_, Or.inl rfl⟩
    · simp [greedyWords, joinPre]
    · simpa [joinPre] using hbud
  | cons w ws ih =>
    intro acc len hne hlen hbud
    have hsw : (" " ++ w).length = 1 + w.length := by
      rw [String.length_append, space_length]
    by_cases hfit : len + (" " ++ w).length > budget
    · refine ⟨0, Nat.zero_le _, ?_, ?_, Or.inr ?_⟩
      · simp only [greedyWords, hne, ite_false, if_neg]
        rw [if_pos]
        · simp [joinPre]
        · exact hfit
      · simpa [joinPre] using hbud
      · simp only [List.take_succ_cons, List.take_zero, joinPre, String.append_empty,
          String.length_append, space_length]
        omega
    · have hlen2 : (acc ++ (" " ++ w)).length = len + (" " ++ w).length := by
        rw [String.length_append, hlen]
      have hne2 : acc ++ (" " ++ w) ≠ "" := by
        rw [str_ne_empty_iff] at hne ⊢
        rw [String.length_append]
        omega
      have hbud2 : (acc ++ (" " ++ w)).length ≤ budget := by
        rw [hlen2]
        omega
      obtain ⟨k, hk, heq, hb, hmax⟩ :=
        ih (acc ++ (" " ++ w)) (len + (" " ++ w).length) hne2 hlen2.symm hbud2
      refine ⟨k + 1, by simpa using hk, ?_, ?_, ?_⟩
      · simp only [greedyWords, hne, ite_false]
        rw [if_neg hfit, heq]
        simp [List.take_succ_cons, joinPre, String.append_assoc]
      · simpa [List.take_succ_cons, joinPre, String.append_assoc] using hb
      · rcases hmax with h | h
        · exact Or.inl (by simp [h])
        · exact Or.inr (by simpa [List.take_succ_cons, joinPre, String.append_assoc] using h)

theorem splitSpaceChars_ne_nil (l : List Char) : splitSpaceChars l ≠ [] := by
  cases l with
  | nil => simp [splitSpaceChars]
  | cons c rest =>
    simp only [splitSpaceChars]
    split
    · simp
    · split <;> simp

theorem jsSplitSpace_ne_nil (s : String) : jsSplitSpace s ≠ [] := by
  unfold jsSplitSpace
  simp [splitSpaceChars_ne_nil]

/-- Whatever the word list (including the empty-first-word quirk of the
JavaScript truthiness test), the greedy accumulator never exceeds the
budget. -/
theorem greedy_length_le (budget : Nat) (ws : List String) :
    ∀ acc len, len = acc.length → len ≤ budget →
      (greedyWords budget ws acc len).length ≤ budget := by
  induction ws with
  | nil =>
    intro acc len hlen hbud
    simpa [greedyWords, hlen] using hbud
  | cons w ws ih =>
    intro acc len hlen hbud
    have hrw : greedyWords budget (w :: ws) acc len
        = if len + ((if acc = "" then "" else " ") ++ w).length > budget then acc
          else greedyWords budget ws (acc ++ ((if acc = "" then "" else " ") ++ w))
                 (len + ((if acc = "" then "" else " ") ++ w).length) := by
      simp [greedyWords]
    rw [hrw]
    set sep := (if acc = "" then "" else " ") with hsep
    split
    · omega
    · exact ih _ _ (by simp only [String.length_append]; omega)
        (by simp only [String.length_append] at *; omega)

theorem jsTake_length (s : String) (n : Nat) : (jsTake s n).length = min n s.length := by
  show (s.data.take n).length = _
  rw [List.length_take]
  rfl

theorem trim_unfold (text : String) (L : Nat) :
    trimTextToTokenLimit text L
      = if estimateTokens text ≤ L then text
        else if greedyWords (L * 4) (jsSplitSpace text) "" 0 = ""
          then jsTake text (L * 4)
          else greedyWords (L * 4) (jsSplitSpace text) "" 0 := by
  simp [trimTextToTokenLimit]

theorem trim_tokens_le (text : String) (L : Nat) :
    estimateTokens (trimTextToTokenLimit text L) ≤ L := by
  rw [trim_unfold]
  split
  · omega
  · split
    · unfold estimateTokens
      rw [jsTake_length]
      have := Nat.min_le_left (L * 4) text.length
      omega
    · unfold estimateTokens
      have := greedy_length_le (L * 4) (jsSplitSpace text) "" 0 rfl (Nat.zero_le _)
      omega

theorem google_trim_tokens_le (text : String) (L : Nat) :
    estimateTokens (googleTrimTextToTokenLimit text L) ≤ L := by
  unfold googleTrimTextToTokenLimit
  split
  · omega
  · rename_i h
    unfold estimateTokens at h ⊢
    rw [jsTake_length]
    set len := text.length with hlendef
    set e := (len + 3) / 4 with hedef
    have he1 : 1 ≤ e := by omega
    have hle : len ≤ 4 * e := by omega
    have hd : len * L / e ≤ 4 * L := by
      have h1 : len * L ≤ e * (4 * L) := by
        calc len * L ≤ 4 * e * L := Nat.mul_le_mul_right L hle
        _ = e * (4 * L) := by ring
      calc len * L / e ≤ e * (4 * L) / e := Nat.div_le_div_right h1
      _ = 4 * L := Nat.mul_div_cancel_left _ (by omega)
    have := Nat.min_le_left (len * L / e) len
    omega

/-- Over-budget vertex trimming returns either the longest whole-word
prefix fitting the character budget, or — when the first word alone
overflows the budget — the hard character truncation. -/
theorem trim_greedy_cases (text : String) (L : Nat) (hgt : L < estimateTokens text)
    (hhd : (jsSplitSpace text).headD "" ≠ "") :
    (∃ k, 1 ≤ k ∧ k ≤ (jsSplitSpace text).length
      ∧ trimTextToTokenLimit text L = joinSpace ((jsSplitSpace text).take k)
      ∧ (joinSpace ((jsSplitSpace text).take k)).length ≤ L * 4
      ∧ (k = (jsSplitSpace text).length
          ∨ L * 4 < (joinSpace ((jsSplitSpace text).take (k + 1))).length))
    ∨ (L * 4 < ((jsSplitSpace text).headD "").length
        ∧ trimTextToTokenLimit text L = jsTake text (L * 4)) := by
  rcases hsplit : jsSplitSpace text with _ | ⟨w, ws⟩
  · exact absurd hsplit (jsSplitSpace_ne_nil text)
  have hw : w ≠ "" := by
    rw [hsplit] at hhd
    simpa using hhd
  have htrim : trimTextToTokenLimit text L =
      (if greedyWords (L * 4) (w :: ws) "" 0 = ""
       then jsTake text (L * 4) else greedyWords (L * 4) (w :: ws) "" 0) := by
    rw [trim_unfold, if_neg (by omega), hsplit]
  have hstep : greedyWords (L * 4) (w :: ws) "" 0
      = if 0 + w.length > L * 4 then ""
        else greedyWords (L * 4) ws w w.length := by
    simp [greedyWords]
  by_cases hfit : 0 + w.length > L * 4
  · refine Or.inr ⟨?_, ?_⟩
    · simp only [List.headD_cons]
      omega
    · rw [htrim, hstep, if_pos hfit]
      simp
  · obtain ⟨k, hk, heq, hb, hmax⟩ :=
      greedy_spec (L * 4) ws w w.length hw rfl (by omega)
    have hres : greedyWords (L * 4) (w :: ws) "" 0 = w ++ joinPre (ws.take k) := by
      rw [hstep, if_neg hfit, heq]
    have hne0 : w ++ joinPre (ws.take k) ≠ "" := by
      rw [str_ne_empty_iff] at hw ⊢
      rw [String.length_append]
      omega
    refine Or.inl ⟨k + 1, by omega, by simp; omega, ?_, ?_, ?_⟩
    · rw [htrim, hres, if_neg hne0, List.take_succ_cons, joinSpace_cons]
    · rw [List.take_succ_cons, joinSpace_cons]
      exact hb
    · rcases hmax with h | h
      · exact Or.inl (by simp [h])
      · refine Or.inr ?_
        rw [List.take_succ_cons, joinSpace_cons]
        exact h

/-- C2 counterexample: the two trimming implementations disagree, and the
google one splits a word.  For `"aaaaa bbbbb"` at limit 1 (character budget
4) no whole word fits, so the claimed behaviour is the hard truncation
`"aaaa"` — which the vertex implementation produces — while the google
implementation truncates proportionally to `"aaa"`, a split of the word
`"aaaaa"` that is not the claimed character-budget truncation either. -/
theorem C2_counterexample :
    googleTrimTextToTokenLimit "aaaaa bbbbb" 1 = "aaa"
    ∧ trimTextToTokenLimit "aaaaa bbbbb" 1 = "aaaa"
    ∧ 1 < estimateTokens "aaaaa bbbbb"
    ∧ ("aaa" : String) ≠ "aaaa" :=
  ⟨rfl, rfl, by decide, by decide⟩

/-- C2 (amended): trimming is a no-op at or below the limit, and the
trimmed result's token estimate never exceeds the limit, on both surfaces.
The word-boundary part holds for the vertex implementation only: when the
text (whose word list starts with a non-empty word) is over the limit, the
result is the longest whole-space-separated-word prefix within the `L * 4`
character budget — maximal in that either it uses every word or adding the
next word would overflow — except that when no whole word fits the text is
hard-truncated at the character budget.  The google implementation instead
truncates proportionally by characters and may split words (see the
counterexample). -/
theorem C2_output_trimming (text : String) (L : Nat) :
    (estimateTokens text ≤ L →
        trimTextToTokenLimit text L = text ∧ googleTrimTextToTokenLimit text L = text)
    ∧ estimateTokens (trimTextToTokenLimit text L) ≤ L
    ∧ estimateTokens (googleTrimTextToTokenLimit text L) ≤ L
    ∧ (L < estimateTokens text → (jsSplitSpace text).headD "" ≠ "" →
        (∃ k, 1 ≤ k ∧ k ≤ (jsSplitSpace text).length
          ∧ trimTextToTokenLimit text L = joinSpace ((jsSplitSpace text).take k)
          ∧ (joinSpace ((jsSplitSpace text).take k)).length ≤ L * 4
          ∧ (k = (jsSplitSpace text).length
              ∨ L * 4 < (joinSpace ((jsSplitSpace text).take (k + 1))).length))
        ∨ (L * 4 < ((jsSplitSpace text).headD "").length
            ∧ trimTextToTokenLimit text L = jsTake text (L * 4))) := by
  refine ⟨?_, trim_tokens_le text L, google_trim_tokens_le text L, trim_greedy_cases text L⟩
  intro h
  constructor
  · rw [trim_unfold, if_pos h]
  · simp [googleTrimTextToTokenLimit, h]

theorem C2_witness :
    (trimTextToTokenLimit "short text" 10 = "short text"
      ∧ googleTrimTextToTokenLimit "short text" 10 = "short text")
    ∧ estimateTokens (trimTextToTokenLimit "aaa bb c" 1) ≤ 1
    ∧ estimateTokens (googleTrimTextToTokenLimit "aaa bb c" 1) ≤ 1
    ∧ ((∃ k, 1 ≤ k ∧ k ≤ (jsSplitSpace "aaa bb c").length
        ∧ trimTextToTokenLimit "aaa bb c" 1 = joinSpace ((jsSplitSpace "aaa bb c").take k)
        ∧ (joinSpace ((jsSplitSpace "aaa bb c").take k)).length ≤ 1 * 4
        ∧ (k = (jsSplitSpace "aaa bb c").length
            ∨ 1 * 4 < (joinSpace ((jsSplitSpace "aaa bb c").take (k + 1))).length))
      ∨ (1 * 4 < ((jsSplitSpace "aaa bb c").headD "").length
          ∧ trimTextToTokenLimit "aaa bb c" 1 = jsTake "aaa bb c" (1 * 4))) :=
  ⟨(C2_output_trimming "short text" 10).1 (by decide),
   (C2_output_trimming "aaa bb c" 1).2.1,
   (C2_output_trimming "aaa bb c" 1).2.2.1,
   (C2_output_trimming "aaa bb c" 1).2.2.2 (by decide) (by decide)⟩

/-! ### C3: streaming decomposition -/

def joinSpaceChars : List (List Char) → List Char
  | [] => []
  | [g] => g
  | g :: g2 :: gs => g ++ ' ' :: joinSpaceChars (g2 :: gs)

theorem joinSpaceChars_cons_cons (c : Char) (g : List Char) (gs : List (List Char)) :
    joinSpaceChars ((c :: g) :: gs) = c :: joinSpaceChars (g :: gs) := by
  cases gs with
  | nil => rfl
  | cons g2 gs2 => rfl

theorem joinSpaceChars_splitSpaceChars (l : List Char) :
    joinSpaceChars (splitSpaceChars l) = l := by
  induction l with
  | nil => rfl
  | cons c rest ih =>
    simp only [splitSpaceChars]
    rcases h : splitSpaceChars rest with _ | ⟨g, gs⟩
    · exact absurd h (splitSpaceChars_ne_nil rest)
    · rw [h] at ih
      show joinSpaceChars (if c = ' ' then [] :: g :: gs else (c :: g) :: gs) = c :: rest
      by_cases hc : c = ' '
      · rw [if_pos hc, hc]
        show ' ' :: joinSpaceChars (g :: gs) = ' ' :: rest
        rw [ih]
      · rw [if_neg hc, joinSpaceChars_cons_cons, ih]

theorem joinSpace_map_mk (gs : List (List Char)) :
    joinSpace (gs.map String.mk) = String.mk (joinSpaceChars gs) := by
  match gs with
  | [] => rfl
  | [g] => rfl
  | g :: g2 :: rest =>
    show String.mk g ++ " " ++ joinSpace ((g2 :: rest).map String.mk) = _
    rw [joinSpace_map_mk (g2 :: rest)]
    apply String.ext
    show g ++ [' '] ++ joinSpaceChars (g2 :: rest) = g ++ ' ' :: joinSpaceChars (g2 :: rest)
    simp

/-- JavaScript `split(' ')` followed by the cumulative `' '`-rejoin is the
identity: the final streamed increment reconstructs the part text exactly. -/
theorem joinSpace_jsSplitSpace (s : String) : joinSpace (jsSplitSpace s) = s := by
  unfold jsSplitSpace
  rw [joinSpace_map_mk, joinSpaceChars_splitSpaceChars]

theorem cumAux_getLast? (ws : List String) : ∀ cur, ws ≠ [] →
    (cumAux cur ws).getLast? = some (cur ++ joinPre ws) := by
  induction ws with
  | nil => intro cur h; exact absurd rfl h
  | cons w ws ih =>
    intro cur _
    cases ws with
    | nil =>
      show ([cur ++ " " ++ w]).getLast? = _
      simp [joinPre, String.append_assoc]
    | cons x xs =>
      show ((cur ++ " " ++ w) :: ((cur ++ " " ++ w) ++ " " ++ x)
          :: cumAux ((cur ++ " " ++ w) ++ " " ++ x) xs).getLast? = _
      rw [List.getLast?_cons_cons]
      have := ih (cur ++ " " ++ w) (by simp)
      show (cumAux (cur ++ " " ++ w) (x :: xs)).getLast? = _
      rw [this]
      simp [joinPre, String.append_assoc]

theorem cumulativeTexts_getLast? (ws : List String) (h : ws ≠ []) :
    (cumulativeTexts ws).getLast? = some (joinSpace ws) := by
  cases ws with
  | nil => exact absurd rfl h
  | cons w l =>
    cases l with
    | nil => rfl
    | cons x xs =>
      show (w :: (w ++ " " ++ x) :: cumAux (w ++ " " ++ x) xs).getLast? = _
      rw [List.getLast?_cons_cons]
      show (cumAux w (x :: xs)).getLast? = _
      rw [cumAux_getLast? (x :: xs) w (by simp), joinSpace_cons]

theorem markLast_eq (u : Option UsageMetadata) : ∀ (ts : List String) (h : ts ≠ []),
    markLast u ts = (ts.dropLast.map fun t => (⟨t, none, none⟩ : StreamChunk))
      ++ [⟨ts.getLast h, some "STOP", u⟩]
  | [], h => absurd rfl h
  | [t], _ => by simp [markLast, List.getLast]
  | t :: t2 :: ts, _ => by
    show (⟨t, none, none⟩ : StreamChunk) :: markLast u (t2 :: ts) = _
    rw [markLast_eq u (t2 :: ts) (by simp)]
    simp [List.getLast]

theorem cumulativeTexts_ne_nil (s : String) : cumulativeTexts (jsSplitSpace s) ≠ [] := by
  rcases h : jsSplitSpace s with _ | ⟨w, ws⟩
  · exact absurd h (jsSplitSpace_ne_nil s)
  · show (w :: cumAux w ws) ≠ []
    simp

/-- C3 (amended): for a completed response whose first candidate has
exactly one text part, the stream re-sends the cumulative text word by
word, the final increment's text equals the part text exactly, and
`finishReason = STOP` and the usage metadata appear on the final increment
only.  (When several text parts are present the code instead streams each
part separately, attaching STOP and usage to the last increment of *every*
part — see the counterexample.) -/
theorem C3_streaming_single_text_part (resp : GenResponse) (c : Candidate)
    (rest : List Candidate) (s : String)
    (hcand : resp.candidates = c :: rest)
    (hparts : textsOfParts c.content.parts = [s]) :
    (streamGenerateContent resp).map (fun ch => ch.text)
        = cumulativeTexts (jsSplitSpace s)
    ∧ (streamGenerateContent resp).getLast?
        = some ⟨s, some "STOP", resp.usageMetadata⟩
    ∧ ∀ ch ∈ (streamGenerateContent resp).dropLast,
        ch.finishReason = none ∧ ch.usage = none := by
  have hsne : jsSplitSpace s ≠ [] := jsSplitSpace_ne_nil s
  have htne : cumulativeTexts (jsSplitSpace s) ≠ [] := cumulativeTexts_ne_nil s
  have hstream : streamGenerateContent resp
      = markLast resp.usageMetadata (cumulativeTexts (jsSplitSpace s)) := by
    unfold streamGenerateContent
    rw [hcand]
    show ((textsOfParts c.content.parts).map (streamPartChunks resp.usageMetadata)).flatten = _
    rw [hparts]
    simp [streamPartChunks]
  have hlast : (cumulativeTexts (jsSplitSpace s)).getLast htne = s := by
    have h1 := cumulativeTexts_getLast? (jsSplitSpace s) hsne
    have h2 := List.getLast?_eq_getLast (cumulativeTexts (jsSplitSpace s)) htne
    rw [h2] at h1
    injection h1 with h3
    rw [h3, joinSpace_jsSplitSpace]
  rw [hstream, markLast_eq resp.usageMetadata _ htne]
  refine ⟨?_, ?_, ?_⟩
  · simp only [List.map_append, List.map_map, List.map_cons, List.map_nil]
    have hcomp : ((fun ch => StreamChunk.text ch) ∘ fun t => (⟨t, none, none⟩ : StreamChunk))
        = id := rfl
    rw [hcomp, List.map_id]
    show _ ++ [(cumulativeTexts (jsSplitSpace s)).getLast htne] = _
    exact List.dropLast_append_getLast htne
  · rw [List.getLast?_concat, hlast]
  · rw [List.dropLast_concat]
    intro ch hch
    simp only [List.mem_map] at hch
    obtain ⟨t, _, rfl⟩ := hch
    exact ⟨rfl, rfl⟩

/-- A completed response whose first candidate carries two text parts (the
preset table and the thinking/code-execution overlays can produce
multi-part candidates). -/
def respTwoTexts : GenResponse :=
  { candidates := [{
      content := { role := some "model", parts := [.text "ab cd", .text "ef"] },
      finishReason := some "STOP",
      index := 0 }],
    usageMetadata := some ⟨1, 2, 3, none⟩ }

/-- C3 counterexample: with two text parts the stream attaches
`finishReason = STOP` and usage metadata to increment 2 of 3 — an increment
that is not the final one — and the final increment's text `"ef"` is not
the response's full text `"ab cd ef"`. -/
theorem C3_counterexample :
    streamGenerateContent respTwoTexts
      = [⟨"ab", none, none⟩,
         ⟨"ab cd", some "STOP", some ⟨1, 2, 3, none⟩⟩,
         ⟨"ef", some "STOP", some ⟨1, 2, 3, none⟩⟩]
    ∧ ¬(∀ ch ∈ (streamGenerateContent respTwoTexts).dropLast,
        ch.finishReason = none ∧ ch.usage = none)
    ∧ (streamGenerateContent respTwoTexts).getLast?
        = some ⟨"ef", some "STOP", some ⟨1, 2, 3, none⟩⟩
    ∧ extractTextFromResponse respTwoTexts = "ab cd ef"
    ∧ ("ef" : String) ≠ "ab cd ef" :=
  ⟨rfl, by decide, rfl, rfl, by decide⟩

theorem C3_witness :
    (streamGenerateContent (simpleReply "Hello world today" (some ⟨1, 2, 3, none⟩))).map
        (fun ch => ch.text) = cumulativeTexts (jsSplitSpace "Hello world today")
    ∧ (streamGenerateContent (simpleReply "Hello world today" (some ⟨1, 2, 3, none⟩))).getLast?
        = some ⟨"Hello world today", some "STOP",
            (simpleReply "Hello world today" (some ⟨1, 2, 3, none⟩)).usageMetadata⟩
    ∧ ∀ ch ∈ (streamGenerateContent
          (simpleReply "Hello world today" (some ⟨1, 2, 3, none⟩))).dropLast,
        ch.finishReason = none ∧ ch.usage = none :=
  C3_streaming_single_text_part (simpleReply "Hello world today" (some ⟨1, 2, 3, none⟩))
    _ [] "Hello world today" rfl rfl


theorem conformsB_null (s : Schema) : conformsB s JsonValue.null = false := by
  rcases s with ⟨t, props, req, items, enums, nb⟩
  cases t <;> simp [conformsB]

theorem isNull_false_of_conforms {s : Schema} {v : JsonValue}
    (h : conformsB s v = true) : v.isNull = false := by
  cases v
  case null =>
    rw [conformsB_null] at h
    cases h
  all_goals rfl

theorem generateStringValue_str (r : Nat → ℚ) (e : List String) (i : String) (k : Nat) :
    ∃ x k2, generateStringValue r e i k = (JsonValue.str x, k2) := by
  simp only [generateStringValue]
  split_ifs <;> exact ⟨_, _, rfl⟩

theorem generateIntegerValue_int (r : Nat → ℚ) (i : String) (k : Nat) :
    ∃ x k2, generateIntegerValue r i k = (JsonValue.int x, k2) := by
  simp only [generateIntegerValue]
  split_ifs <;> exact ⟨_, _, rfl⟩

theorem generateBooleanValue_bool (r : Nat → ℚ) (i : String) (k : Nat) :
    ∃ x k2, generateBooleanValue r i k = (JsonValue.bool x, k2) := by
  simp only [generateBooleanValue]
  split_ifs <;> exact ⟨_, _, rfl⟩

theorem itemCount_bounds (q : ℚ) (_h0 : 0 ≤ q) (h1 : q < 1) :
    1 ≤ (Int.floor (q * 5)).toNat + 1 ∧ (Int.floor (q * 5)).toNat + 1 ≤ 5 := by
  refine ⟨by omega, ?_⟩
  have h5 : q * 5 < 5 := by nlinarith
  have hf : Int.floor (q * 5) < 5 :=
    Int.floor_lt.mpr (by exact_mod_cast h5)
  have h4 : Int.floor (q * 5) ≤ 4 := by omega
  have ht : (Int.floor (q * 5)).toNat ≤ 4 := Int.toNat_le.mpr (by exact_mod_cast h4)
  omega

theorem propsHasKey_iff_mem : ∀ (props : PropList) (key : String),
    propsHasKey props key = true ↔ key ∈ propsKeys props
  | .nil, key => by simp [propsHasKey, propsKeys]
  | .cons pk ps prest, key => by
    simp [propsHasKey, propsKeys, Bool.or_eq_true, beq_iff_eq,
      propsHasKey_iff_mem prest key]
    tauto

theorem conformsFields_cons_of_not_hasKey {pk : String} {ps : Schema} {prest : PropList}
    {fs : FieldList} (hno : fs.hasKey pk = false)
    (h : conformsFields prest fs = true) :
    conformsFields (.cons pk ps prest) fs = true := by
  cases fs with
  | nil => simp [conformsFields]
  | cons fk fv frest =>
    have hne : ¬ pk = fk := by
      intro he
      simp [FieldList.hasKey, he] at hno
    simp [conformsFields, hne]
    exact h

theorem genProps_keys : ∀ (props : PropList) (r : Nat → ℚ) (req : List String)
    (input : String) (depth k : Nat) (key : String),
    ((genProps r props req input depth k).1.hasKey key) = true →
    propsHasKey props key = true
  | .nil, r, req, input, depth, k, key => by
    intro h
    simp [genProps, FieldList.hasKey] at h
  | .cons pk ps prest, r, req, input, depth, k, key => by
    intro h
    by_cases hb : pk == key
    · simp [propsHasKey, hb]
    · have hstep : propsHasKey prest key = true → propsHasKey (PropList.cons pk ps prest) key = true := by
        intro h2
        simp [propsHasKey, h2]
      simp only [genProps] at h
      by_cases hreq : req.contains pk = true
      · rw [if_pos hreq] at h
        dsimp only at h
        split at h
        · exact hstep (genProps_keys prest r req input depth _ key h)
        · simp only [FieldList.hasKey, Bool.or_eq_true] at h
          rcases h with h | h
          · exact absurd h hb
          · exact hstep (genProps_keys prest r req input depth _ key h)
      · rw [if_neg hreq] at h
        by_cases hcoin : 3 / 10 < r k
        · rw [if_pos hcoin] at h
          dsimp only at h
          split at h
          · exact hstep (genProps_keys prest r req input depth _ key h)
          · simp only [FieldList.hasKey, Bool.or_eq_true] at h
            rcases h with h | h
            · exact absurd h hb
            · exact hstep (genProps_keys prest r req input depth _ key h)
        · rw [if_neg hcoin] at h
          exact hstep (genProps_keys prest r req input depth (k + 1) key h)
mutual

theorem gen_conforms (r : Nat → ℚ) (hr : ∀ i, 0 ≤ r i ∧ r i < 1) (s : Schema)
    (input : String) (depth k : Nat) (hok : schemaOK depth s = true) :
    conformsB s (generateObjectFromSchema r s input depth k).1 = true :=
  match s, hok with
  | .mk .STRING props req items enums nb, hok => by
    simp only [schemaOK, Bool.and_eq_true, decide_eq_true_eq, Bool.and_true] at hok
    have hguard : ¬ depth > 10 := by omega
    obtain ⟨x, k2, hst⟩ := generateStringValue_str r enums input k
    rw [show generateObjectFromSchema r (.mk .STRING props req items enums nb) input depth k
        = generateStringValue r enums input k from by
      simp [generateObjectFromSchema, hguard]]
    rw [hst]
    simp [conformsB]
  | .mk .INTEGER props req items enums nb, hok => by
    simp only [schemaOK, Bool.and_eq_true, decide_eq_true_eq, Bool.and_true] at hok
    have hguard : ¬ depth > 10 := by omega
    obtain ⟨x, k2, hst⟩ := generateIntegerValue_int r input k
    rw [show generateObjectFromSchema r (.mk .INTEGER props req items enums nb) input depth k
        = generateIntegerValue r input k from by
      simp [generateObjectFromSchema, hguard]]
    rw [hst]
    simp [conformsB]
  | .mk .NUMBER props req items enums nb, hok => by
    simp only [schemaOK, Bool.and_eq_true, decide_eq_true_eq, Bool.and_true] at hok
    have hguard : ¬ depth > 10 := by omega
    rw [show generateObjectFromSchema r (.mk .NUMBER props req items enums nb) input depth k
        = generateNumberValue r k from by
      simp [generateObjectFromSchema, hguard]]
    simp [generateNumberValue, conformsB]
  | .mk .BOOLEAN props req items enums nb, hok => by
    simp only [schemaOK, Bool.and_eq_true, decide_eq_true_eq, Bool.and_true] at hok
    have hguard : ¬ depth > 10 := by omega
    obtain ⟨x, k2, hst⟩ := generateBooleanValue_bool r input k
    rw [show generateObjectFromSchema r (.mk .BOOLEAN props req items enums nb) input depth k
        = generateBooleanValue r input k from by
      simp [generateObjectFromSchema, hguard]]
    rw [hst]
    simp [conformsB]
  | .mk .ARRAY props req .none enums nb, hok => by
    simp [schemaOK] at hok
  | .mk .ARRAY props req (.some it) enums nb, hok => by
    simp only [schemaOK, Bool.and_eq_true, decide_eq_true_eq] at hok
    obtain ⟨hd10, hit⟩ := hok
    have hguard : ¬ depth > 10 := by omega
    rw [show generateObjectFromSchema r (.mk .ARRAY props req (.some it) enums nb) input depth k
        = (JsonValue.arr (genArrayItems r it input depth (k + 1)
            ((Int.floor (r k * 5)).toNat + 1)).1,
           (genArrayItems r it input depth (k + 1)
            ((Int.floor (r k * 5)).toNat + 1)).2) from by
      simp [generateObjectFromSchema, hguard, generateArrayValue]]
    obtain ⟨hcf, hlen⟩ := genItems_conform r hr it input depth (k + 1)
      ((Int.floor (r k * 5)).toNat + 1) hit
    obtain ⟨hc1, hc5⟩ := itemCount_bounds (r k) (hr k).1 (hr k).2
    simp only [conformsB, Bool.and_eq_true, decide_eq_true_eq]
    refine ⟨?_, hcf⟩
    rw [hlen]
    exact ⟨hc1, hc5⟩
  | .mk .OBJECT props req items enums nb, hok => by
    simp only [schemaOK, Bool.and_eq_true, decide_eq_true_eq, List.all_eq_true] at hok
    obtain ⟨hd10, ⟨hreq, hnd⟩, hprops⟩ := hok
    have hguard : ¬ depth > 10 := by omega
    rw [show generateObjectFromSchema r (.mk .OBJECT props req items enums nb) input depth k
        = (JsonValue.obj (genProps r props req input depth k).1,
           (genProps r props req input depth k).2) from by
      simp [generateObjectFromSchema, hguard, generateObjectValue]]
    obtain ⟨hcf, hkeys⟩ := genProps_conform r hr props req input depth k hprops hnd
    simp only [conformsB, Bool.and_eq_true, List.all_eq_true]
    refine ⟨hcf, ?_⟩
    intro key hkey
    exact hkeys key (hreq key hkey) (List.elem_eq_true_of_mem hkey)
termination_by (sizeOf s, 0)

theorem genItems_conform (r : Nat → ℚ) (hr : ∀ i, 0 ≤ r i ∧ r i < 1) (it : Schema)
    (input : String) (depth k count : Nat) (hok : schemaOK (depth + 1) it = true) :
    conformsList it (genArrayItems r it input depth k count).1 = true
    ∧ (genArrayItems r it input depth k count).1.length = count :=
  match count with
  | 0 => by
    rw [show (genArrayItems r it input depth k 0).1 = JsonList.nil from by
      simp [genArrayItems]]
    exact ⟨by simp [conformsList], by simp [JsonList.length]⟩
  | n + 1 => by
    have heq : (genArrayItems r it input depth k (n + 1)).1
        = .cons (generateObjectFromSchema r it input (depth + 1) k).1
            (genArrayItems r it input depth
              (generateObjectFromSchema r it input (depth + 1) k).2 n).1 := by
      simp [genArrayItems]
    obtain ⟨ihc, ihl⟩ := genItems_conform r hr it input depth
      ((generateObjectFromSchema r it input (depth + 1) k).2) n hok
    rw [heq]
    constructor
    · simp only [conformsList, Bool.and_eq_true]
      exact ⟨gen_conforms r hr it input (depth + 1) k hok, ihc⟩
    · simp only [JsonList.length, ihl]
      omega
termination_by (sizeOf it, count + 1)

theorem genProps_conform (r : Nat → ℚ) (hr : ∀ i, 0 ≤ r i ∧ r i < 1) (props : PropList)
    (req : List String) (input : String) (depth k : Nat)
    (hoks : schemaOKProps (depth + 1) props = true)
    (hnd : (propsKeys props).Nodup) :
    conformsFields props (genProps r props req input depth k).1 = true
    ∧ ∀ key, propsHasKey props key = true → req.contains key = true →
        FieldList.hasKey key (genProps r props req input depth k).1 = true :=
  match props with
  | .nil => by
    rw [show (genProps r .nil req input depth k).1 = FieldList.nil from by simp [genProps]]
    refine ⟨by simp [conformsFields], ?_⟩
    intro key hpk
    simp [propsHasKey] at hpk
  | .cons pk ps prest => by
    simp only [schemaOKProps, Bool.and_eq_true] at hoks
    obtain ⟨hps, hrest⟩ := hoks
    have hnd2 : pk ∉ propsKeys prest ∧ (propsKeys prest).Nodup := by
      simpa [propsKeys, List.nodup_cons] using hnd
    by_cases hreq : req.contains pk = true
    · have hv := gen_conforms r hr ps input (depth + 1) k hps
      have hvn : (generateObjectFromSchema r ps input (depth + 1) k).1.isNull = false :=
        isNull_false_of_conforms hv
      have heq : (genProps r (.cons pk ps prest) req input depth k).1
          = .cons pk (generateObjectFromSchema r ps input (depth + 1) k).1
              (genProps r prest req input depth
                (generateObjectFromSchema r ps input (depth + 1) k).2).1 := by
        simp only [genProps]
        rw [if_pos hreq]
        dsimp only
        rw [if_neg (by simp [hvn])]
      obtain ⟨ihc, ihk⟩ := genProps_conform r hr prest req input depth
        (generateObjectFromSchema r ps input (depth + 1) k).2 hrest hnd2.2
      rw [heq]
      constructor
      · simp only [conformsFields, if_true, Bool.and_eq_true]
        exact ⟨hv, ihc⟩
      · intro key hpk hrq
        by_cases hb : (pk == key) = true
        · simp [FieldList.hasKey, hb]
        · have hpk2 : propsHasKey prest key = true := by
            simp only [propsHasKey, Bool.or_eq_true] at hpk
            rcases hpk with h | h
            · exact absurd h hb
            · exact h
          simp only [FieldList.hasKey, Bool.or_eq_true]
          exact Or.inr (ihk key hpk2 hrq)
    · by_cases hcoin : 3 / 10 < r k
      · have hv := gen_conforms r hr ps input (depth + 1) (k + 1) hps
        have hvn : (generateObjectFromSchema r ps input (depth + 1) (k + 1)).1.isNull = false :=
          isNull_false_of_conforms hv
        have heq : (genProps r (.cons pk ps prest) req input depth k).1
            = .cons pk (generateObjectFromSchema r ps input (depth + 1) (k + 1)).1
                (genProps r prest req input depth
                  (generateObjectFromSchema r ps input (depth + 1) (k + 1)).2).1 := by
          simp only [genProps]
          rw [if_neg hreq, if_pos hcoin]
          dsimp only
          rw [if_neg (by simp [hvn])]
        obtain ⟨ihc, ihk⟩ := genProps_conform r hr prest req input depth
          (generateObjectFromSchema r ps input (depth + 1) (k + 1)).2 hrest hnd2.2
        rw [heq]
        constructor
        · simp only [conformsFields, if_true, Bool.and_eq_true]
          exact ⟨hv, ihc⟩
        · intro key hpk hrq
          by_cases hb : (pk == key) = true
          · simp [FieldList.hasKey, hb]
          · have hpk2 : propsHasKey prest key = true := by
              simp only [propsHasKey, Bool.or_eq_true] at hpk
              rcases hpk with h | h
              · exact absurd h hb
              · exact h
            simp only [FieldList.hasKey, Bool.or_eq_true]
            exact Or.inr (ihk key hpk2 hrq)
      · have heq : (genProps r (.cons pk ps prest) req input depth k).1
            = (genProps r prest req input depth (k + 1)).1 := by
          simp only [genProps]
          rw [if_neg hreq, if_neg hcoin]
        obtain ⟨ihc, ihk⟩ := genProps_conform r hr prest req input depth (k + 1) hrest hnd2.2
        rw [heq]
        constructor
        · refine conformsFields_cons_of_not_hasKey ?_ ihc
          by_contra hcontra
          rw [Bool.not_eq_false] at hcontra
          have hmem := genProps_keys prest r req input depth (k + 1) pk hcontra
          exact hnd2.1 ((propsHasKey_iff_mem prest pk).mp hmem)
        · intro key hpk hrq
          simp only [propsHasKey, Bool.or_eq_true] at hpk
          rcases hpk with h | h
          · have hpe : pk = key := eq_of_beq h
            rw [hpe] at hreq
            exact absurd hrq hreq
          · exact ihk key h hrq
termination_by (sizeOf props, 0)

end
/-- Nested ARRAY schema of the given depth with a STRING leaf. -/
def nestArr : Nat → Schema
  | 0 => .mk .STRING .nil [] .none [] false
  | n + 1 => .mk .ARRAY .nil [] (.some (nestArr n)) [] false

/-- A small well-formed schema: an OBJECT with a required STRING property and a
required ARRAY-of-STRING property. -/
def wSchema : Schema :=
  .mk .OBJECT
    (.cons "name" (.mk .STRING .nil [] .none [] false)
      (.cons "tags" (.mk .ARRAY .nil [] (.some (.mk .STRING .nil [] .none [] false)) [] false)
        .nil))
    ["name", "tags"] .none [] false

/-- **C4** (corrected). For every random stream with values in `[0,1)` and every
well-formed schema tree (`schemaOK`: generation depth stays ≤ 10, every ARRAY node
carries `items`, every OBJECT node declares all of its `required` keys among its
duplicate-free `properties`), `generateObjectFromSchema` returns a value whose
runtime type matches the schema's declared type at every node, every generated
ARRAY value has between 1 and 5 items, every generated OBJECT value contains all
required keys, and object key order follows the properties declaration order
(all captured by `conformsB`). The depth restriction is necessary: see the
counterexample theorem for the unrestricted claim. -/
theorem C4_schema_generator_conformance (r : Nat → ℚ) (hr : ∀ i, 0 ≤ r i ∧ r i < 1)
    (schema : Schema) (input : String) (k : Nat) (hok : schemaOK 0 schema = true) :
    conformsB schema (generateObjectFromSchema r schema input 0 k).1 = true :=
  gen_conforms r hr schema input 0 k hok

/-- C4 counterexample: on an 11-deep nested ARRAY schema the `depth > 10` guard of
`generateObjectFromSchema` emits `null` at the innermost node, so the generated
value does not type-match the schema at every node, refuting the claim as stated
for arbitrary schema trees. -/
theorem C4_counterexample :
    conformsB (nestArr 11) (generateObjectFromSchema rZero (nestArr 11) "" 0 0).1 = false := by
  norm_num [nestArr, generateObjectFromSchema, generateArrayValue, genArrayItems,
    conformsB, conformsList, rZero, conformsB_null, JsonList.length]

theorem C4_witness :
    (0 ≤ rZero 0 ∧ rZero 0 < 1) ∧ schemaOK 0 wSchema = true ∧
    conformsB wSchema (generateObjectFromSchema rZero wSchema "say hi" 0 0).1 = true :=
  ⟨⟨le_refl 0, by norm_num [rZero]⟩,
   by simp [wSchema, schemaOK, schemaOKProps, propsHasKey, propsKeys],
   C4_schema_generator_conformance rZero (fun _ => ⟨le_refl 0, by norm_num [rZero]⟩)
     wSchema "say hi" 0
     (by simp [wSchema, schemaOK, schemaOKProps, propsHasKey, propsKeys])⟩

end MockGemini
